import Mathlib

/-!
# Sign-state watermark of the horcrux signer

A shallow embedding of `signer/sign_state.go`: the high-water mark over
(Height, Round, Step), the cache of recent sign states, the Save protocol and
the rule that allows signing again at the same coordinate when only the
timestamp of the payload changed.

Conventions of the embedding:

* Go integers are `Int`; the one subtraction of the file that can leave the
  64-bit range (`ssc.Height-blocksToCache`) is wrapped with `wrapInt64`.
* A Go byte slice is `Option (List Nat)`: `none` is the nil slice, `some l` a
  non-nil slice with contents `l`.
* A Go `error` is `Option Error`, `none` being nil.
* A call that may panic returns an `Outcome`.
* The map `cache` is a finite partial function `HRSKey → Option _`.
* The mutex and the condition variable are not part of the embedding.
-/

namespace Horcrux

/-! ## Basic types -/

/-- A byte slice: `none` is the nil slice. -/
abbrev ByteSlice := Option (List Nat)

/-- The contents of a byte slice, the nil slice having none. -/
def bytesOf : ByteSlice → List Nat
  | none => []
  | some l => l

/-- Go `bytes.Equal`: equality of contents, so that a nil slice equals an empty one. -/
def bytesEqual (a b : ByteSlice) : Bool :=
  decide (bytesOf a = bytesOf b)

/-- The result of a call that either returns or panics. -/
inductive Outcome (α : Type) where
  | returned (a : α)
  | panicked (msg : String)
  deriving DecidableEq, Repr

def stepPropose : Int := 1

def stepPrevote : Int := 2

def stepPrecommit : Int := 3

def blocksToCache : Int := 3

/-- Membership in the range of a Go `int64`. -/
def isInt64 (x : Int) : Prop := -9223372036854775808 ≤ x ∧ x ≤ 9223372036854775807

instance (x : Int) : Decidable (isInt64 x) := by
  unfold isInt64; infer_instance

/-- Membership in the range of a Go `int8`. -/
def isInt8 (x : Int) : Prop := -128 ≤ x ∧ x ≤ 127

instance (x : Int) : Decidable (isInt8 x) := by
  unfold isInt8; infer_instance

/-- The value a Go `int64` holds after an arithmetic result `x` wraps around. -/
def wrapInt64 (x : Int) : Int :=
  (x + 9223372036854775808) % 18446744073709551616 - 9223372036854775808

/-- Modelled from the spec: the type `HRSKey` is declared outside
`sign_state.go`; the spec gives it as Height (64-bit signed), Round (64-bit
signed) and Step (8-bit). -/
structure HRSKey where
  Height : Int
  Round : Int
  Step : Int
  deriving DecidableEq, Repr

/-- Modelled from the spec: `HRSKey.GreaterThan` is declared outside
`sign_state.go`; the spec gives it as the strict comparison in the
lexicographic order on (Height, Round, Step). -/
def HRSKey.GreaterThan (hrs other : HRSKey) : Bool :=
  if hrs.Height > other.Height then true
  else if hrs.Height < other.Height then false
  else if hrs.Round > other.Round then true
  else if hrs.Round < other.Round then false
  else decide (hrs.Step > other.Step)

/-- Modelled from the spec: the type `HRSTKey` is declared outside
`sign_state.go`; the spec gives it as an HRSKey plus a Timestamp. -/
structure HRSTKey where
  Height : Int
  Round : Int
  Step : Int
  Timestamp : Int
  deriving DecidableEq, Repr

/-- The coordinate of a key as an element of the lexicographic product. -/
def HRSKey.lex (k : HRSKey) : Lex (Int × Lex (Int × Int)) :=
  toLex (k.Height, toLex (k.Round, k.Step))

/-- The coordinate of a request, its timestamp left out. -/
def HRSTKey.hrs (k : HRSTKey) : HRSKey :=
  { Height := k.Height, Round := k.Round, Step := k.Step }

/-! ## Errors -/

/-- The errors built in `sign_state.go`, one constructor per construction site. -/
inductive Error where
  /-- "height regression. Got %v, last height %v" -/
  | heightRegression (got last : Int)
  /-- "round regression at height %v. Got %v, last round %v" -/
  | roundRegression (height got last : Int)
  /-- "step regression at height %v round %v. Got %v, last step %v" -/
  | stepRegression (height round got last : Int)
  /-- "no SignBytes found" -/
  | noSignBytes
  /-- "regression not allowed" -/
  | regressionNotAllowed
  /-- newSameHRSError: "HRS is the same as current: %d:%d:%d" -/
  | sameHRS (hrs : HRSKey)
  /-- "unexpected sign step: %d" -/
  | unexpectedStep (step : Int)
  /-- "lastSignBytes cannot be unmarshalled into vote: %v" -/
  | lastVoteUnmarshal (err : String)
  /-- "signBytes cannot be unmarshalled into vote: %v" -/
  | newVoteUnmarshal (err : String)
  /-- "lastSignBytes cannot be unmarshalled into proposal: %v" -/
  | lastProposalUnmarshal (err : String)
  /-- "signBytes cannot be unmarshalled into proposal: %v" -/
  | newProposalUnmarshal (err : String)
  /-- "already signed vote with non-nil BlockID. refusing to sign vote on nil BlockID" -/
  | signedNonNilRefuseNil
  /-- "already signed vote with nil BlockID. refusing to sign vote on non-nil BlockID" -/
  | signedNilRefuseNonNil
  /-- "differing block IDs - last Vote: %s, new Vote: %s" -/
  | differingBlockIDs (last new : List Nat)
  /-- newConflictingDataError: "conflicting data. existing: %s - new: %s" -/
  | conflictingData (existingSignBytes newSignBytes : ByteSlice)
  deriving DecidableEq, Repr

/-- The Go type behind an error value. -/
inductive ErrorKind where
  /-- built by `errors.New` or `fmt.Errorf` -/
  | errorString
  /-- `*SameHRSError` -/
  | sameHRSError
  /-- `*ConflictingDataError` -/
  | conflictingDataError
  deriving DecidableEq, Repr

def Error.kind : Error → ErrorKind
  | .sameHRS _ => .sameHRSError
  | .conflictingData _ _ => .conflictingDataError
  | _ => .errorString

/-- The three regression errors of `CheckHRS`. -/
def Error.isCheckRegression : Error → Bool
  | .heightRegression _ _ => true
  | .roundRegression _ _ _ => true
  | .stepRegression _ _ _ _ => true
  | _ => false

/-! ## Canonical payloads

The canonical vote and proposal and their length-delimited decoding belong to
the cometbft library. The message types are written out; the decoder is a
parameter of the embedding. -/

structure CanonicalPartSetHeader where
  Total : Nat
  Hash : List Nat
  deriving DecidableEq, Repr

structure CanonicalBlockID where
  Hash : List Nat
  PartSetHeader : CanonicalPartSetHeader
  deriving DecidableEq, Repr

structure CanonicalVote where
  /-- the Go field Type -/
  Type_ : Int
  Height : Int
  Round : Int
  BlockID : Option CanonicalBlockID
  Timestamp : Int
  ChainID : String
  deriving DecidableEq, Repr

structure CanonicalProposal where
  /-- the Go field Type -/
  Type_ : Int
  Height : Int
  Round : Int
  POLRound : Int
  BlockID : Option CanonicalBlockID
  Timestamp : Int
  ChainID : String
  deriving DecidableEq, Repr

/-- The library calls `protoio.UnmarshalDelimited(bz, &msg)` for the two
message types: the decoded message, or the text of the decoding error. -/
structure Codec where
  unmarshalVote : List Nat → Except String CanonicalVote
  unmarshalProposal : List Nat → Except String CanonicalProposal

/-- `GetHash` of a possibly nil block id: a nil receiver has no hash bytes. -/
def getHash : Option CanonicalBlockID → List Nat
  | none => []
  | some b => b.Hash

def newConflictingDataError (existingSignBytes newSignBytes : ByteSlice) : Error :=
  .conflictingData existingSignBytes newSignBytes

def checkVoteOnlyDifferByTimestamp (c : Codec) (lastSignBytes newSignBytes : ByteSlice) :
    Option Error :=
  match c.unmarshalVote (bytesOf lastSignBytes) with
  | .error err => some (.lastVoteUnmarshal err)
  | .ok lastVote =>
    match c.unmarshalVote (bytesOf newSignBytes) with
    | .error err => some (.newVoteUnmarshal err)
    | .ok newVote0 =>
      -- set the times to the same value and check equality
      let newVote := { newVote0 with Timestamp := lastVote.Timestamp }
      if newVote = lastVote then none
      else
        let lastVoteBlockID := lastVote.BlockID
        let newVoteBlockID := newVote.BlockID
        if newVoteBlockID = none ∧ lastVoteBlockID ≠ none then
          some .signedNonNilRefuseNil
        else if newVoteBlockID ≠ none ∧ lastVoteBlockID = none then
          some .signedNilRefuseNonNil
        else if getHash lastVoteBlockID ≠ getHash newVoteBlockID then
          some (.differingBlockIDs (getHash lastVoteBlockID) (getHash newVoteBlockID))
        else some (newConflictingDataError lastSignBytes newSignBytes)

def checkProposalOnlyDifferByTimestamp (c : Codec) (lastSignBytes newSignBytes : ByteSlice) :
    Option Error :=
  match c.unmarshalProposal (bytesOf lastSignBytes) with
  | .error err => some (.lastProposalUnmarshal err)
  | .ok lastProposal =>
    match c.unmarshalProposal (bytesOf newSignBytes) with
    | .error err => some (.newProposalUnmarshal err)
    | .ok newProposal0 =>
      -- set the times to the same value and check equality
      let newProposal := { newProposal0 with Timestamp := lastProposal.Timestamp }
      let isEqual := decide (newProposal = lastProposal)
      if !isEqual then some (newConflictingDataError lastSignBytes newSignBytes)
      else none

def onlyDifferByTimestamp (c : Codec) (step : Int) (signStateSignBytes signBytes : ByteSlice) :
    Option Error :=
  if step = stepPropose then
    checkProposalOnlyDifferByTimestamp c signStateSignBytes signBytes
  else if step = stepPrevote ∨ step = stepPrecommit then
    checkVoteOnlyDifferByTimestamp c signStateSignBytes signBytes
  else some (.unexpectedStep step)

/-! ## The sign state -/

structure SignStateConsensus where
  Height : Int
  Round : Int
  Step : Int
  Signature : ByteSlice
  SignBytes : ByteSlice
  deriving DecidableEq, Repr

def SignStateConsensus.HRSKey (signState : SignStateConsensus) : HRSKey :=
  { Height := signState.Height, Round := signState.Round, Step := signState.Step }

/-- The fields of a consensus record are within their Go types. -/
def SignStateConsensus.inRange (ssc : SignStateConsensus) : Prop :=
  isInt64 ssc.Height ∧ isInt64 ssc.Round ∧ isInt8 ssc.Step

instance (ssc : SignStateConsensus) : Decidable ssc.inRange := by
  unfold SignStateConsensus.inRange; infer_instance

/-- SignState stores signing information for high level watermark management. -/
structure SignState where
  Height : Int
  Round : Int
  Step : Int
  NoncePublic : ByteSlice
  Signature : ByteSlice
  SignBytes : ByteSlice
  filePath : String
  cache : HRSKey → Option SignStateConsensus

/-- The exported fields of a SignState, which is what `cometjson.MarshalIndent`
writes and `cometjson.Unmarshal` reads. -/
structure SignStateJSON where
  height : Int
  round : Int
  step : Int
  nonce_public : ByteSlice
  signature : ByteSlice
  signbytes : ByteSlice
  deriving DecidableEq, Repr

def SignState.marshal (signState : SignState) : SignStateJSON :=
  { height := signState.Height, round := signState.Round, step := signState.Step,
    nonce_public := signState.NoncePublic, signature := signState.Signature,
    signbytes := signState.SignBytes }

def SignState.HRSKey (signState : SignState) : HRSKey :=
  { Height := signState.Height, Round := signState.Round, Step := signState.Step }

def SignState.hrsKeyLocked (signState : SignState) : Horcrux.HRSKey :=
  { Height := signState.Height, Round := signState.Round, Step := signState.Step }

/-- CheckHRS checks the given height, round, step against that of the
SignState. It panics if the HRS matches, there is a SignBytes, but no Signature. -/
def SignState.CheckHRS (signState : SignState) (hrst : HRSTKey) :
    Outcome (Bool × Option Error) :=
  if signState.Height > hrst.Height then
    .returned (false, some (.heightRegression hrst.Height signState.Height))
  else if signState.Height = hrst.Height then
    if signState.Round > hrst.Round then
      .returned (false, some (.roundRegression hrst.Height hrst.Round signState.Round))
    else if signState.Round = hrst.Round then
      if signState.Step > hrst.Step then
        .returned (false,
          some (.stepRegression hrst.Height hrst.Round hrst.Step signState.Step))
      else if signState.Step = hrst.Step then
        if signState.SignBytes ≠ none then
          if signState.Signature = none then
            .panicked "pv: Signature is nil but SignBytes is not!"
          else .returned (true, none)
        else .returned (false, some .noSignBytes)
      else .returned (false, none)
    else .returned (false, none)
  else .returned (false, none)

def SignState.OnlyDifferByTimestamp (c : Codec) (signState : SignState) (signBytes : ByteSlice) :
    Option Error :=
  onlyDifferByTimestamp c signState.Step signState.SignBytes signBytes

def SignState.existingSignatureOrErrorIfRegression (c : Codec) (signState : SignState)
    (hrst : HRSTKey) (signBytes : ByteSlice) : Outcome (ByteSlice × Option Error) :=
  match signState.CheckHRS hrst with
  | .panicked msg => .panicked msg
  | .returned (_, some err) => .returned (none, some err)
  | .returned (false, none) =>
    -- not a regression in height. okay to sign
    .returned (none, none)
  | .returned (true, none) =>
    if bytesEqual signBytes signState.SignBytes then
      .returned (signState.Signature, none)
    else
      match signState.OnlyDifferByTimestamp c signBytes with
      | some err => .returned (none, some err)
      | none =>
        -- same HRS, and only differ by timestamp - ok to sign again
        .returned (none, none)

/-- GetFromCache returns the latest signed block within the SignState and the
relevant SignStateConsensus from the cache, if present. -/
def SignState.GetFromCache (signState : SignState) (hrs : Horcrux.HRSKey) :
    Horcrux.HRSKey × Option SignStateConsensus :=
  let latestBlock := signState.hrsKeyLocked
  match signState.cache hrs with
  | some ssc => (latestBlock, some ssc)
  | none => (latestBlock, none)

/-- The assignment `m[k] = v` on a map. -/
def mapInsert (m : HRSKey → Option SignStateConsensus) (k : HRSKey) (v : SignStateConsensus) :
    HRSKey → Option SignStateConsensus :=
  fun k' => if k' = k then some v else m k'

/-- The loop of `cacheAndMarshal` that deletes every key whose Height is below
`bound`. -/
def mapEvictBelow (m : HRSKey → Option SignStateConsensus) (bound : Int) :
    HRSKey → Option SignStateConsensus :=
  fun hrs => if hrs.Height < bound then none else m hrs

/-- cacheAndMarshal caches a SignStateConsensus for its HRS and returns the
marshalled state. -/
def SignState.cacheAndMarshal (signState : SignState) (ssc : SignStateConsensus) :
    SignState × SignStateJSON :=
  let cache1 := mapInsert signState.cache ssc.HRSKey ssc
  let cache2 := mapEvictBelow cache1 (wrapInt64 (ssc.Height - blocksToCache))
  let signState1 : SignState :=
    { signState with
      cache := cache2
      Height := ssc.Height
      Round := ssc.Round
      Step := ssc.Step
      Signature := ssc.Signature
      SignBytes := ssc.SignBytes }
  (signState1, signState1.marshal)

def SignState.GetErrorIfLessOrEqual (signState : SignState) (height round step : Int) :
    Option Error :=
  let hrs : Horcrux.HRSKey := { Height := height, Round := round, Step := step }
  let signStateHRS := signState.HRSKey
  if signStateHRS.GreaterThan hrs then some .regressionNotAllowed
  else if hrs = signStateHRS then
    -- same HRS as current
    some (.sameHRS { Height := height, Round := round, Step := step })
  else
    -- Step is greater, so all good
    none

/-- The value of `os.DevNull`. -/
def osDevNull : String := "/dev/null"

/-- The file write issued by `save`: the path and what is written there, or
nothing when the write is skipped. -/
abbrev DiskWrite := Option (String × SignStateJSON)

/-- The method `save`: persists the marshalled state to the filePath.
`writeErr` is what `tempfile.WriteFileAtomic` answers when it is called. -/
def SignState.save (signState : SignState) (jsonBytes : SignStateJSON)
    (writeErr : Option String) : Outcome DiskWrite :=
  let outFile := signState.filePath
  if outFile = osDevNull then .returned none
  else if outFile = "" then .panicked "cannot save SignState: filePath not set"
  else
    match writeErr with
    | some err => .panicked err
    | none => .returned (some (outFile, jsonBytes))

/-- What a call of `Save` leaves behind. -/
structure SaveResult where
  /-- the receiver after the call -/
  state : SignState
  /-- what the call returns, or its panic -/
  ret : Outcome (Option Error)
  /-- the outcome of the disk write, which runs in the caller or, with a wait
  group, in a goroutine of its own -/
  disk : Outcome DiskWrite

/-- Save updates the high watermark if the HRS of `ssc` is greater than the
current one. `pendingDiskWG` tells whether a wait group was passed. -/
def SignState.Save (signState : SignState) (ssc : SignStateConsensus) (pendingDiskWG : Bool)
    (writeErr : Option String) : SaveResult :=
  match signState.GetErrorIfLessOrEqual ssc.Height ssc.Round ssc.Step with
  | some err => { state := signState, ret := .returned (some err), disk := .returned none }
  | none =>
    -- HRS is greater than existing state, move forward with caching and saving.
    let (signState1, jsonBytes) := signState.cacheAndMarshal ssc
    let written := signState1.save jsonBytes writeErr
    if pendingDiskWG then
      { state := signState1, ret := .returned none, disk := written }
    else
      match written with
      | .panicked msg => { state := signState1, ret := .panicked msg, disk := written }
      | .returned _ => { state := signState1, ret := .returned none, disk := written }

/-- FreshCache returns a clone of a SignState with a new cache including the
most recent sign state. -/
def SignState.FreshCache (signState : SignState) : SignState :=
  { Height := signState.Height
    Round := signState.Round
    Step := signState.Step
    NoncePublic := signState.NoncePublic
    Signature := signState.Signature
    SignBytes := signState.SignBytes
    filePath := signState.filePath
    cache := mapInsert (fun _ => none)
      { Height := signState.Height, Round := signState.Round, Step := signState.Step }
      { Height := signState.Height, Round := signState.Round, Step := signState.Step,
        Signature := signState.Signature, SignBytes := signState.SignBytes } }

/-- The empty sign state that `LoadOrCreateSignState` builds when the file
does not exist. -/
def emptySignState (filepath : String) : SignState :=
  { Height := 0, Round := 0, Step := 0, NoncePublic := none, Signature := none,
    SignBytes := none, filePath := filepath, cache := fun _ => none }

/-- Two canonical votes agree in every field other than Timestamp. -/
def voteEqExceptTimestamp (a b : CanonicalVote) : Prop :=
  a.Type_ = b.Type_ ∧ a.Height = b.Height ∧ a.Round = b.Round ∧ a.BlockID = b.BlockID ∧
    a.ChainID = b.ChainID

instance (a b : CanonicalVote) : Decidable (voteEqExceptTimestamp a b) := by
  unfold voteEqExceptTimestamp; infer_instance

/-- Two canonical proposals agree in every field other than Timestamp. -/
def proposalEqExceptTimestamp (a b : CanonicalProposal) : Prop :=
  a.Type_ = b.Type_ ∧ a.Height = b.Height ∧ a.Round = b.Round ∧ a.POLRound = b.POLRound ∧
    a.BlockID = b.BlockID ∧ a.ChainID = b.ChainID

instance (a b : CanonicalProposal) : Decidable (proposalEqExceptTimestamp a b) := by
  unfold proposalEqExceptTimestamp; infer_instance

/-- The rule of the specification for signing again at one coordinate: both
payloads decode as the canonical structure of the step (a proposal for step 1,
a vote for steps 2 and 3) and the decoded structures agree in every field other
than Timestamp. -/
def differOnlyByTimestamp (c : Codec) (step : Int) (last new : ByteSlice) : Prop :=
  (step = 1 ∧ ∃ a b, c.unmarshalProposal (bytesOf last) = .ok a ∧
      c.unmarshalProposal (bytesOf new) = .ok b ∧ proposalEqExceptTimestamp a b) ∨
    ((step = 2 ∨ step = 3) ∧ ∃ a b, c.unmarshalVote (bytesOf last) = .ok a ∧
      c.unmarshalVote (bytesOf new) = .ok b ∧ voteEqExceptTimestamp a b)

/-- The payload decodes as the canonical structure of the step. -/
def decodesForStep (c : Codec) (step : Int) (x : ByteSlice) : Prop :=
  (step = 1 ∧ ∃ a, c.unmarshalProposal (bytesOf x) = .ok a) ∨
    ((step = 2 ∨ step = 3) ∧ ∃ a, c.unmarshalVote (bytesOf x) = .ok a)

/-- A decoder of a four-byte layout (type, height, round, timestamp) with a nil
block id and an empty chain id, on which the definitions are run on concrete
payloads. -/
def fourByteCodec : Codec :=
  { unmarshalVote := fun bz =>
      match bz with
      | [t, h, r, ts] =>
        .ok { Type_ := t, Height := h, Round := r, BlockID := none, Timestamp := ts,
              ChainID := "" }
      | _ => .error "unexpected EOF"
    unmarshalProposal := fun bz =>
      match bz with
      | [t, h, r, ts] =>
        .ok { Type_ := t, Height := h, Round := r, POLRound := -1, BlockID := none,
              Timestamp := ts, ChainID := "" }
      | _ => .error "unexpected EOF" }

/-- The sign states the program can hold: the empty state that
`LoadOrCreateSignState` builds, the result of `FreshCache` on any state (which
is what `LoadSignState` returns), and the receiver after a call of `Save` with
a record whose fields are within their Go types. -/
inductive Reachable : SignState → Prop where
  | created (filepath : String) : Reachable (emptySignState filepath)
  | fresh (st : SignState) : Reachable st.FreshCache
  | save (st : SignState) (ssc : SignStateConsensus) (wg : Bool) (werr : Option String) :
      Reachable st → ssc.inRange → Reachable (st.Save ssc wg werr).state

/-- One call of `Save`: the record to admit, whether a wait group is passed,
and what the file write answers. -/
structure SaveCall where
  ssc : SignStateConsensus
  pendingDiskWG : Bool
  writeErr : Option String

/-- A run of calls of `Save` on one sign state, every one of which returns nil:
the sign state after the last call, or `none` as soon as a call does not
return nil. -/
def saveAll : SignState → List SaveCall → Option SignState
  | st, [] => some st
  | st, call :: calls =>
    if (st.Save call.ssc call.pendingDiskWG call.writeErr).ret = .returned none then
      saveAll (st.Save call.ssc call.pendingDiskWG call.writeErr).state calls
    else none

/-! ## Loading the sign state -/

/-- The errors `LoadSignState` and `LoadOrCreateSignState` return. -/
inductive LoadError where
  /-- the error of `os.ReadFile`, passed on -/
  | readFile (err : String)
  /-- the error of `cometjson.Unmarshal`, passed on -/
  | unmarshal (err : String)
  /-- "unexpected error checking file existence (%s): %w" -/
  | statFailed (filepath err : String)
  deriving DecidableEq, Repr

/-- What `os.Stat` answers for the path of the state file. -/
inductive StatResult where
  | found
  | notExist
  | failed (err : String)
  deriving DecidableEq, Repr

/-- LoadSignState loads a sign state from disk. `readFile` is what
`os.ReadFile` answers, and inside it what `cometjson.Unmarshal` makes of the
bytes read. -/
def LoadSignState (filepath : String) (readFile : Except String (Except String SignStateJSON)) :
    Except LoadError SignState :=
  match readFile with
  | .error err => .error (.readFile err)
  | .ok stateJSONBytes =>
    match stateJSONBytes with
    | .error err => .error (.unmarshal err)
    | .ok js =>
      let state : SignState :=
        { Height := js.height, Round := js.round, Step := js.step,
          NoncePublic := js.nonce_public, Signature := js.signature, SignBytes := js.signbytes,
          filePath := "", cache := fun _ => none }
      let state1 := { state with filePath := filepath }
      .ok state1.FreshCache

/-- What a call of `LoadOrCreateSignState` leaves behind. -/
structure LoadOrCreateResult where
  /-- what the call returns, or its panic -/
  ret : Outcome (Except LoadError SignState)
  /-- the file write of the call -/
  disk : Outcome DiskWrite

/-- LoadOrCreateSignState loads the sign state from filepath; if the file does
not exist, an empty sign state is initialized and saved to filepath. -/
def LoadOrCreateSignState (filepath : String) (stat : StatResult)
    (readFile : Except String (Except String SignStateJSON)) (writeErr : Option String) :
    LoadOrCreateResult :=
  match stat with
  | .failed err =>
    { ret := .returned (.error (.statFailed filepath err)), disk := .returned none }
  | .notExist =>
    let state := emptySignState filepath
    let jsonBytes := state.marshal
    match state.save jsonBytes writeErr with
    | .panicked msg => { ret := .panicked msg, disk := .panicked msg }
    | .returned w => { ret := .returned (.ok state), disk := .returned w }
  | .found => { ret := .returned (LoadSignState filepath readFile), disk := .returned none }

/-! ## The text of the conflicting-data error -/

/-- One digit of the lower-case hexadecimal alphabet. -/
def hexDigit (n : Nat) : Char :=
  if n < 10 then Char.ofNat (48 + n) else Char.ofNat (87 + n)

/-- Go `hex.EncodeToString`: two lower-case hexadecimal digits for each byte. -/
def hexEncodeToString (src : List Nat) : String :=
  String.mk (src.map fun b => [hexDigit (b / 16), hexDigit (b % 16)]).flatten

/-- The `msg` that `newConflictingDataError` formats:
"conflicting data. existing: %s - new: %s" with the two payloads in hexadecimal. -/
def conflictingDataMsg (existingSignBytes newSignBytes : ByteSlice) : String :=
  "conflicting data. existing: " ++ hexEncodeToString (bytesOf existingSignBytes) ++
    " - new: " ++ hexEncodeToString (bytesOf newSignBytes)

/-- The text of a ConflictingDataError (its method `Error`); other errors are
not of that type. -/
def Error.conflictingDataText : Error → Option String
  | .conflictingData existingSignBytes newSignBytes =>
    some (conflictingDataMsg existingSignBytes newSignBytes)
  | _ => none

/-- A decoder of the layout (type, height, round, timestamp) followed by the
bytes of the block hash, no byte there standing for a nil block id; the
definitions are run with it on concrete votes that carry a block id. -/
def blockHashCodec : Codec :=
  { unmarshalVote := fun bz =>
      match bz with
      | t :: h :: r :: ts :: hash =>
        .ok { Type_ := t, Height := h, Round := r,
              BlockID := if hash = [] then none
                else some { Hash := hash, PartSetHeader := { Total := 0, Hash := [] } },
              Timestamp := ts, ChainID := "" }
      | _ => .error "unexpected EOF"
    unmarshalProposal := fun bz =>
      match bz with
      | t :: h :: r :: ts :: hash =>
        .ok { Type_ := t, Height := h, Round := r, POLRound := -1,
              BlockID := if hash = [] then none
                else some { Hash := hash, PartSetHeader := { Total := 0, Hash := [] } },
              Timestamp := ts, ChainID := "" }
      | _ => .error "unexpected EOF" }

/-- The error `checkVoteOnlyDifferByTimestamp` picks once both votes are decoded
and found to differ. -/
def voteConflictError (last new : ByteSlice) (a b : CanonicalVote) : Error :=
  if b.BlockID = none ∧ a.BlockID ≠ none then .signedNonNilRefuseNil
  else if b.BlockID ≠ none ∧ a.BlockID = none then .signedNilRefuseNonNil
  else if getHash a.BlockID ≠ getHash b.BlockID then
    .differingBlockIDs (getHash a.BlockID) (getHash b.BlockID)
  else newConflictingDataError last new

/-- The steps of the specification: 1 (propose), 2 (prevote), 3 (precommit). -/
def validStep (step : Int) : Prop := step = 1 ∨ step = 2 ∨ step = 3

instance (step : Int) : Decidable (validStep step) := by
  unfold validStep; infer_instance

/-! ## States reached with well-formed records -/

/-- The sign states reached from the empty state of `LoadOrCreateSignState` by
calls of `Save` and `FreshCache`, every record passed to `Save` having a
Signature whenever it has SignBytes. -/
inductive ReachableWellFormed : SignState → Prop where
  | created (filepath : String) : ReachableWellFormed (emptySignState filepath)
  | save (st : SignState) (ssc : SignStateConsensus) (wg : Bool) (werr : Option String) :
      ReachableWellFormed st → (ssc.SignBytes ≠ none → ssc.Signature ≠ none) →
        ReachableWellFormed (st.Save ssc wg werr).state
  | freshCache (st : SignState) : ReachableWellFormed st → ReachableWellFormed st.FreshCache

/-! ## Concurrent calls of Save

`Save` takes the lock twice: `GetErrorIfLessOrEqual` reads the coordinate under
the read lock and releases it, then `cacheAndMarshal` runs under the write
lock. Each of the two is one atomic step of the call; steps of different calls
interleave. -/

/-- How far one call of `Save` has got. -/
inductive SavePhase where
  /-- the pre-check has not run yet -/
  | start
  /-- the pre-check returned nil; `cacheAndMarshal` has not run yet -/
  | admitted
  /-- the pre-check returned an error, or `cacheAndMarshal` has run -/
  | finished (err : Option Error)
  deriving DecidableEq, Repr

/-- One call of `Save` in flight. -/
structure SaveThread where
  ssc : SignStateConsensus
  phase : SavePhase
  deriving DecidableEq, Repr

/-- The next atomic step of one call of `Save` on the shared sign state. -/
def stepSave (st : SignState) (t : SaveThread) : SignState × SaveThread :=
  match t.phase with
  | .start =>
    match st.GetErrorIfLessOrEqual t.ssc.Height t.ssc.Round t.ssc.Step with
    | some err => (st, { t with phase := .finished (some err) })
    | none => (st, { t with phase := .admitted })
  | .admitted => ((st.cacheAndMarshal t.ssc).1, { t with phase := .finished none })
  | .finished _ => (st, t)

/-- Runs the calls in the order of the schedule, which names the call that
takes the next step, and lists the coordinate of the sign state after every
step, the initial one first. -/
def hwmTrace (st : SignState) (threads : List SaveThread) : List Nat → List HRSKey
  | [] => [st.HRSKey]
  | i :: schedule =>
    match threads.get? i with
    | none => st.HRSKey :: hwmTrace st threads schedule
    | some t =>
      st.HRSKey :: hwmTrace (stepSave st t).1 (threads.set i (stepSave st t).2) schedule

/-- The phases of the calls after the schedule has run. -/
def phasesAfter (st : SignState) (threads : List SaveThread) : List Nat → List SavePhase
  | [] => threads.map fun t => t.phase
  | i :: schedule =>
    match threads.get? i with
    | none => phasesAfter st threads schedule
    | some t => phasesAfter (stepSave st t).1 (threads.set i (stepSave st t).2) schedule

/-! ## Cosigner key shares

The embedding of `signer/cosigner_key_shares.go`. The key types and the key
generators belong to the libraries `crypto/rsa`, `ecies`, `privval` and
`threshold-ed25519`; the types are written out with the fields used here and
the generators and the dealer are parameters. -/

/-- The slice `f(i, x)` over the elements `x` of a slice with their positions
`i`, counted from `start`. -/
def mapWithIndexFrom {α β : Type} (f : Nat → α → β) : Nat → List α → List β
  | _, [] => []
  | start, a :: as => f start a :: mapWithIndexFrom f (start + 1) as

/-- What `errgroup.Group.Wait` returns for the outcomes of the goroutines: nil
when none failed, else the error of a goroutine that failed (the first one in
the order of the slice is taken here; the group returns the first in time). -/
def firstError {α : Type} : List (Except String α) → Option String
  | [] => none
  | .error err :: _ => some err
  | .ok _ :: rest => firstError rest

structure RSAPublicKey where
  N : Nat
  E : Int
  deriving DecidableEq, Repr

/-- The type `rsa.PrivateKey`, which embeds its public key. -/
structure RSAPrivateKey where
  PublicKey : RSAPublicKey
  D : Nat
  Primes : List Nat
  deriving DecidableEq, Repr

structure ECIESPublicKey where
  X : Nat
  Y : Nat
  deriving DecidableEq, Repr

/-- The type `ecies.PrivateKey`, which embeds a pointer to its public key. -/
structure ECIESPrivateKey where
  PublicKey : Option ECIESPublicKey
  D : Nat
  deriving DecidableEq, Repr

/-- The fields of `privval.FilePVKey` read here; `PrivKey` holds what its
method `Bytes` returns, `none` being a nil key. -/
structure FilePVKey where
  PubKey : ByteSlice
  PrivKey : ByteSlice
  deriving DecidableEq, Repr

/-- Modelled from the spec: the type `CosignerEd25519Key` is declared outside
`cosigner_key_shares.go`; it carries the public key of the validator, the
scalar share of this cosigner and its 1-based ID. -/
structure CosignerEd25519Key where
  PubKey : ByteSlice
  PrivateShard : ByteSlice
  ID : Int
  deriving DecidableEq, Repr

/-- Modelled from the spec: the type `CosignerRSAKey` is declared outside
`cosigner_key_shares.go`; it carries the private key of this cosigner, its
1-based ID and the list of the public keys of all cosigners. -/
structure CosignerRSAKey where
  ID : Int
  RSAKey : RSAPrivateKey
  RSAPubs : List (Option RSAPublicKey)
  deriving DecidableEq, Repr

/-- Modelled from the spec: the type `CosignerECIESKey` is declared outside
`cosigner_key_shares.go`; it carries the private key of this cosigner, its
1-based ID and the list of the public keys of all cosigners. -/
structure CosignerECIESKey where
  ID : Int
  ECIESKey : Option ECIESPrivateKey
  ECIESPubs : List (Option ECIESPublicKey)
  deriving DecidableEq, Repr

/-- CreateCosignerEd25519Shards creates CosignerEd25519Key objects from a
privval.FilePVKey. `expandSecret` and `dealShares` are the library calls
`tsed25519.ExpandSecret` and `tsed25519.DealShares`. -/
def CreateCosignerEd25519Shards (expandSecret : List Nat → List Nat)
    (dealShares : List Nat → Nat → Nat → List ByteSlice)
    (pv : FilePVKey) (threshold shards : Nat) : Outcome (List CosignerEd25519Key) :=
  match pv.PrivKey with
  | none => .panicked "invalid memory address or nil pointer dereference"
  | some bytes =>
    if bytes.length < 32 then .panicked "slice bounds out of range"
    else
      let privShards := dealShares (expandSecret (bytes.take 32)) threshold shards
      -- out := make([]CosignerEd25519Key, shards), then out[i] for every share
      if shards < privShards.length then .panicked "index out of range"
      else
        .returned
          (mapWithIndexFrom
              (fun i shard =>
                { PubKey := pv.PubKey, PrivateShard := shard, ID := (i : Int) + 1 })
              0 privShards ++
            List.replicate (shards - privShards.length)
              { PubKey := none, PrivateShard := none, ID := 0 })

/-- The function `makeRSAKeys`: `generateKey i` is what `rsa.GenerateKey`
answers in goroutine `i`. -/
def makeRSAKeys (generateKey : Nat → Except String RSAPrivateKey) (num : Int) :
    Outcome (List (Option RSAPrivateKey) × List (Option RSAPublicKey) × Option String) :=
  if num < 0 then .panicked "makeslice: len out of range"
  else
    let results := (List.range num.toNat).map generateKey
    .returned
      (results.map fun r =>
          match r with
          | .ok rsaKey => some rsaKey
          | .error _ => none,
        results.map fun r =>
          match r with
          | .ok rsaKey => some rsaKey.PublicKey
          | .error _ => none,
        firstError results)

/-- The loop of `CreateCosignerRSAShards` over the keys from position `i` on;
`*key` panics on a nil key. -/
def rsaRecordsFrom (pubKeys : List (Option RSAPublicKey)) :
    Nat → List (Option RSAPrivateKey) → Outcome (List CosignerRSAKey)
  | _, [] => .returned []
  | _, none :: _ => .panicked "invalid memory address or nil pointer dereference"
  | i, some key :: rest =>
    match rsaRecordsFrom pubKeys (i + 1) rest with
    | .panicked msg => .panicked msg
    | .returned out =>
      .returned ({ ID := (i : Int) + 1, RSAKey := key, RSAPubs := pubKeys } :: out)

/-- CreateCosignerRSAShards generates CosignerRSAKey objects. -/
def CreateCosignerRSAShards (generateKey : Nat → Except String RSAPrivateKey) (shards : Int) :
    Outcome (Except String (List CosignerRSAKey)) :=
  match makeRSAKeys generateKey shards with
  | .panicked msg => .panicked msg
  | .returned (_, _, some err) => .returned (.error err)
  | .returned (rsaKeys, pubKeys, none) =>
    match rsaRecordsFrom pubKeys 0 rsaKeys with
    | .panicked msg => .panicked msg
    | .returned out => .returned (.ok out)

/-- The function `makeECIESKeys`: `generateKey i` is what `ecies.GenerateKey`
answers in goroutine `i`. -/
def makeECIESKeys (generateKey : Nat → Except String ECIESPrivateKey) (num : Int) :
    Outcome (List (Option ECIESPrivateKey) × List (Option ECIESPublicKey) × Option String) :=
  if num < 0 then .panicked "makeslice: len out of range"
  else
    let results := (List.range num.toNat).map generateKey
    .returned
      (results.map fun r =>
          match r with
          | .ok eciesKey => some eciesKey
          | .error _ => none,
        results.map fun r =>
          match r with
          | .ok eciesKey => eciesKey.PublicKey
          | .error _ => none,
        firstError results)

/-- CreateCosignerECIESShards generates CosignerECIESKey objects. -/
def CreateCosignerECIESShards (generateKey : Nat → Except String ECIESPrivateKey)
    (shards : Int) : Outcome (Except String (List CosignerECIESKey)) :=
  match makeECIESKeys generateKey shards with
  | .panicked msg => .panicked msg
  | .returned (_, _, some err) => .returned (.error err)
  | .returned (eciesKeys, pubKeys, none) =>
    .returned (.ok
      (mapWithIndexFrom
        (fun i key => { ID := (i : Int) + 1, ECIESKey := key, ECIESPubs := pubKeys })
        0 eciesKeys))

/-! ## The order on coordinates -/

theorem HRSKey.lex_lt_iff (a b : HRSKey) :
    a.lex < b.lex ↔
      a.Height < b.Height ∨
        (a.Height = b.Height ∧ (a.Round < b.Round ∨ (a.Round = b.Round ∧ a.Step < b.Step))) := by
  simp [HRSKey.lex, Prod.Lex.lt_iff]

theorem HRSKey.lex_eq_iff (a b : HRSKey) : a.lex = b.lex ↔ a = b := by
  cases a; cases b
  simp [HRSKey.lex]

theorem HRSKey.greaterThan_iff (a b : HRSKey) : a.GreaterThan b = true ↔ b.lex < a.lex := by
  rw [HRSKey.lex_lt_iff]
  unfold HRSKey.GreaterThan
  split_ifs <;> simp <;> omega

theorem HRSKey.eta_eq_iff (a : HRSKey) (h r s : Int) :
    a = { Height := h, Round := r, Step := s } ↔ a.Height = h ∧ a.Round = r ∧ a.Step = s := by
  cases a; simp

/-! ## GetErrorIfLessOrEqual and Save -/

theorem getErrorIfLessOrEqual_cases (st : SignState) (h r s : Int) :
    (st.GetErrorIfLessOrEqual h r s = some .regressionNotAllowed ∧
        (HRSKey.mk h r s).lex < st.HRSKey.lex) ∨
      (st.GetErrorIfLessOrEqual h r s = some (.sameHRS (HRSKey.mk h r s)) ∧
        st.HRSKey = HRSKey.mk h r s) ∨
      (st.GetErrorIfLessOrEqual h r s = none ∧ st.HRSKey.lex < (HRSKey.mk h r s).lex) := by
  have hdef : st.GetErrorIfLessOrEqual h r s =
      if st.HRSKey.GreaterThan (HRSKey.mk h r s) = true then some .regressionNotAllowed
      else if HRSKey.mk h r s = st.HRSKey then some (.sameHRS (HRSKey.mk h r s))
      else none := rfl
  rw [hdef]
  by_cases hgt : st.HRSKey.GreaterThan (HRSKey.mk h r s) = true
  · left
    exact ⟨by rw [if_pos hgt], (HRSKey.greaterThan_iff _ _).1 hgt⟩
  · by_cases heq : HRSKey.mk h r s = st.HRSKey
    · right; left
      exact ⟨by rw [if_neg hgt, if_pos heq], heq.symm⟩
    · right; right
      refine ⟨by rw [if_neg hgt, if_neg heq], ?_⟩
      have h1 : ¬ (HRSKey.mk h r s).lex < st.HRSKey.lex := fun hlt =>
        hgt ((HRSKey.greaterThan_iff _ _).2 hlt)
      have h2 : st.HRSKey.lex ≠ (HRSKey.mk h r s).lex := fun he =>
        heq ((HRSKey.lex_eq_iff _ _).1 he).symm
      exact lt_of_le_of_ne (not_lt.1 h1) h2

theorem save_refused (st : SignState) (ssc : SignStateConsensus) (wg : Bool)
    (werr : Option String) (e : Error)
    (h : st.GetErrorIfLessOrEqual ssc.Height ssc.Round ssc.Step = some e) :
    st.Save ssc wg werr = { state := st, ret := .returned (some e), disk := .returned none } := by
  unfold SignState.Save
  rw [h]

theorem save_state_of_admitted (st : SignState) (ssc : SignStateConsensus) (wg : Bool)
    (werr : Option String)
    (h : st.GetErrorIfLessOrEqual ssc.Height ssc.Round ssc.Step = none) :
    (st.Save ssc wg werr).state = (st.cacheAndMarshal ssc).1 := by
  unfold SignState.Save
  rw [h]
  simp only
  split
  · rfl
  · split <;> rfl

theorem save_ret_nil_admitted (st : SignState) (ssc : SignStateConsensus) (wg : Bool)
    (werr : Option String) (h : (st.Save ssc wg werr).ret = .returned none) :
    st.GetErrorIfLessOrEqual ssc.Height ssc.Round ssc.Step = none := by
  cases hg : st.GetErrorIfLessOrEqual ssc.Height ssc.Round ssc.Step with
  | none => rfl
  | some e =>
    rw [save_refused st ssc wg werr e hg] at h
    simp at h

theorem save_ret_error_refused (st : SignState) (ssc : SignStateConsensus) (wg : Bool)
    (werr : Option String) (e : Error) (h : (st.Save ssc wg werr).ret = .returned (some e)) :
    st.GetErrorIfLessOrEqual ssc.Height ssc.Round ssc.Step = some e := by
  cases hg : st.GetErrorIfLessOrEqual ssc.Height ssc.Round ssc.Step with
  | some e0 =>
    rw [save_refused st ssc wg werr e0 hg] at h
    simpa using h
  | none =>
    exfalso
    unfold SignState.Save at h
    rw [hg] at h
    simp only at h
    split at h
    · simp at h
    · split at h <;> simp at h

theorem save_step (st : SignState) (ssc : SignStateConsensus) (wg : Bool)
    (werr : Option String) (h : (st.Save ssc wg werr).ret = .returned none) :
    st.HRSKey.lex < ssc.HRSKey.lex ∧ (st.Save ssc wg werr).state.HRSKey = ssc.HRSKey := by
  have hg := save_ret_nil_admitted st ssc wg werr h
  constructor
  · rcases getErrorIfLessOrEqual_cases st ssc.Height ssc.Round ssc.Step with h1 | h1 | h1
    · rw [hg] at h1; simp at h1
    · rw [hg] at h1; simp at h1
    · exact h1.2
  · rw [save_state_of_admitted st ssc wg werr hg]
    rfl

theorem saveAll_chain (calls : List SaveCall) :
    ∀ (st st2 : SignState), saveAll st calls = some st2 →
      List.Chain (fun a b => a.lex < b.lex) st.HRSKey (calls.map fun c => c.ssc.HRSKey) := by
  induction calls with
  | nil => intro st st2 _; exact List.Chain.nil
  | cons call calls ih =>
    intro st st2 hrun
    unfold saveAll at hrun
    split_ifs at hrun with hret
    have hstep := save_step st call.ssc call.pendingDiskWG call.writeErr hret
    have htail := ih _ st2 hrun
    rw [hstep.2] at htail
    exact List.Chain.cons hstep.1 htail

/-! ## CheckHRS and existingSignatureOrErrorIfRegression -/

theorem checkHRS_of_greater (st : SignState) (hrst : HRSTKey)
    (h : hrst.hrs.lex < st.HRSKey.lex) :
    ∃ e, st.CheckHRS hrst = .returned (false, some e) ∧ e.isCheckRegression = true := by
  rw [HRSKey.lex_lt_iff] at h
  simp only [HRSTKey.hrs, SignState.HRSKey] at h
  unfold SignState.CheckHRS
  rcases h with h | ⟨h1, h | ⟨h2, h3⟩⟩
  · refine ⟨.heightRegression hrst.Height st.Height, ?_, rfl⟩
    rw [if_pos h]
  · refine ⟨.roundRegression hrst.Height hrst.Round st.Round, ?_, rfl⟩
    rw [if_neg (by omega), if_pos h1.symm, if_pos h]
  · refine ⟨.stepRegression hrst.Height hrst.Round hrst.Step st.Step, ?_, rfl⟩
    rw [if_neg (by omega), if_pos h1.symm, if_neg (by omega), if_pos h2.symm, if_pos h3]

theorem checkHRS_of_less (st : SignState) (hrst : HRSTKey)
    (h : st.HRSKey.lex < hrst.hrs.lex) : st.CheckHRS hrst = .returned (false, none) := by
  rw [HRSKey.lex_lt_iff] at h
  simp only [HRSTKey.hrs, SignState.HRSKey] at h
  unfold SignState.CheckHRS
  rcases h with h | ⟨h1, h | ⟨h2, h3⟩⟩
  · rw [if_neg (by omega), if_neg (by omega)]
  · rw [if_neg (by omega), if_pos h1, if_neg (by omega), if_neg (by omega)]
  · rw [if_neg (by omega), if_pos h1, if_neg (by omega), if_pos h2, if_neg (by omega),
      if_neg (by omega)]

theorem checkHRS_of_equal (st : SignState) (hrst : HRSTKey) (h : st.HRSKey = hrst.hrs) :
    st.CheckHRS hrst =
      if st.SignBytes ≠ none then
        if st.Signature = none then .panicked "pv: Signature is nil but SignBytes is not!"
        else .returned (true, none)
      else .returned (false, some .noSignBytes) := by
  simp only [HRSTKey.hrs, SignState.HRSKey, HRSKey.mk.injEq] at h
  obtain ⟨h1, h2, h3⟩ := h
  unfold SignState.CheckHRS
  rw [if_neg (by omega), if_pos h1, if_neg (by omega), if_pos h2, if_neg (by omega), if_pos h3]

theorem checkHRS_true (st : SignState) (hrst : HRSTKey) (e : Option Error)
    (h : st.CheckHRS hrst = .returned (true, e)) :
    e = none ∧ st.HRSKey = hrst.hrs ∧ st.SignBytes ≠ none ∧ st.Signature ≠ none := by
  rcases lt_trichotomy st.HRSKey.lex hrst.hrs.lex with hlt | heq | hgt
  · rw [checkHRS_of_less st hrst hlt] at h
    simp at h
  · have hk := (HRSKey.lex_eq_iff _ _).1 heq
    rw [checkHRS_of_equal st hrst hk] at h
    split_ifs at h with hb hs
    · simp only [Outcome.returned.injEq, Prod.mk.injEq, true_and] at h
      exact ⟨h.symm, hk, hb, hs⟩
    · simp at h
  · obtain ⟨e0, he0, _⟩ := checkHRS_of_greater st hrst hgt
    rw [he0] at h
    simp at h

/-! ## The claims on the high-water mark -/

/-- C1: when `Save` returns nil, the coordinate of `ssc` is strictly above the
high-water mark held before the call in the lexicographic order on
(Height, Round, Step), and the high-water mark after the call is the coordinate
of `ssc`; hence along any further run of calls of `Save` that all return nil the
coordinates increase strictly from one call to the next. -/
theorem save_strictly_advances (st : SignState) (ssc : SignStateConsensus) (wg : Bool)
    (werr : Option String) (calls : List SaveCall) (st2 : SignState)
    (h : (st.Save ssc wg werr).ret = .returned none)
    (hrun : saveAll (st.Save ssc wg werr).state calls = some st2) :
    st.HRSKey.lex < ssc.HRSKey.lex ∧
      (st.Save ssc wg werr).state.HRSKey = ssc.HRSKey ∧
      List.Chain (fun a b => a.lex < b.lex) ssc.HRSKey (calls.map fun c => c.ssc.HRSKey) := by
  have hstep := save_step st ssc wg werr h
  refine ⟨hstep.1, hstep.2, ?_⟩
  have hchain := saveAll_chain calls _ st2 hrun
  rw [hstep.2] at hchain
  exact hchain

theorem save_strictly_advances_witness :
    (emptySignState "/dev/null").HRSKey.lex
        < (SignStateConsensus.mk 1 0 1 (some [65]) (some [1])).HRSKey.lex ∧
      ((emptySignState "/dev/null").Save (SignStateConsensus.mk 1 0 1 (some [65]) (some [1]))
        false none).state.HRSKey = (SignStateConsensus.mk 1 0 1 (some [65]) (some [1])).HRSKey ∧
      List.Chain (fun a b => a.lex < b.lex)
        (SignStateConsensus.mk 1 0 1 (some [65]) (some [1])).HRSKey
        ([SaveCall.mk (SignStateConsensus.mk 1 0 2 (some [66]) (some [2])) false none].map
          fun c => c.ssc.HRSKey) :=
  save_strictly_advances (emptySignState "/dev/null")
    (SignStateConsensus.mk 1 0 1 (some [65]) (some [1])) false none
    [SaveCall.mk (SignStateConsensus.mk 1 0 2 (some [66]) (some [2])) false none]
    (((emptySignState "/dev/null").Save (SignStateConsensus.mk 1 0 1 (some [65]) (some [1]))
      false none).state.Save (SignStateConsensus.mk 1 0 2 (some [66]) (some [2]))
      false none).state
    (by decide) (by rw [saveAll, if_pos (by decide)]; rfl)

/-- C2: `GetErrorIfLessOrEqual(h, r, s)` returns the regression error exactly
when the coordinate of the state is lexicographically above (h, r, s), returns
the SameHRSError (an error of another kind than the regression error) exactly
when the two coordinates are equal, and returns nil exactly when (h, r, s) is
lexicographically above the coordinate of the state; `Save` returns the error
of that check for the coordinate of `ssc` whenever it is not nil. -/
theorem getErrorIfLessOrEqual_trichotomy (st : SignState) (h r s : Int) :
    (st.GetErrorIfLessOrEqual h r s = some .regressionNotAllowed ↔
        (HRSKey.mk h r s).lex < st.HRSKey.lex) ∧
      (st.GetErrorIfLessOrEqual h r s = some (.sameHRS (HRSKey.mk h r s)) ↔
        st.HRSKey = HRSKey.mk h r s) ∧
      ((∃ e, st.GetErrorIfLessOrEqual h r s = some e ∧ e.kind = .sameHRSError) ↔
        st.HRSKey = HRSKey.mk h r s) ∧
      (Error.sameHRS (HRSKey.mk h r s)).kind ≠ Error.regressionNotAllowed.kind ∧
      (st.GetErrorIfLessOrEqual h r s = none ↔ st.HRSKey.lex < (HRSKey.mk h r s).lex) ∧
      ∀ (ssc : SignStateConsensus) (wg : Bool) (werr : Option String) (e : Error),
        st.GetErrorIfLessOrEqual ssc.Height ssc.Round ssc.Step = some e →
          (st.Save ssc wg werr).ret = .returned (some e) := by
  have hcases := getErrorIfLessOrEqual_cases st h r s
  refine ⟨⟨?_, ?_⟩, ⟨?_, ?_⟩, ⟨?_, ?_⟩, by simp [Error.kind], ⟨?_, ?_⟩, ?_⟩
  · intro he
    rcases hcases with h1 | h1 | h1
    · exact h1.2
    · rw [h1.1] at he; simp at he
    · rw [h1.1] at he; simp at he
  · intro hlt
    rcases hcases with h1 | h1 | h1
    · exact h1.1
    · rw [h1.2] at hlt; exact absurd hlt (lt_irrefl _)
    · exact absurd (lt_trans hlt h1.2) (lt_irrefl _)
  · intro he
    rcases hcases with h1 | h1 | h1
    · rw [h1.1] at he; simp at he
    · exact h1.2
    · rw [h1.1] at he; simp at he
  · intro heq
    rcases hcases with h1 | h1 | h1
    · rw [heq] at h1; exact absurd h1.2 (lt_irrefl _)
    · exact h1.1
    · rw [heq] at h1; exact absurd h1.2 (lt_irrefl _)
  · rintro ⟨e, he, hk⟩
    rcases hcases with h1 | h1 | h1
    · rw [h1.1] at he
      simp only [Option.some.injEq] at he
      subst he
      simp [Error.kind] at hk
    · exact h1.2
    · rw [h1.1] at he; simp at he
  · intro heq
    rcases hcases with h1 | h1 | h1
    · rw [heq] at h1; exact absurd h1.2 (lt_irrefl _)
    · exact ⟨_, h1.1, rfl⟩
    · rw [heq] at h1; exact absurd h1.2 (lt_irrefl _)
  · intro he
    rcases hcases with h1 | h1 | h1
    · rw [h1.1] at he; simp at he
    · rw [h1.1] at he; simp at he
    · exact h1.2
  · intro hlt
    rcases hcases with h1 | h1 | h1
    · exact absurd (lt_trans hlt h1.2) (lt_irrefl _)
    · rw [h1.2] at hlt; exact absurd hlt (lt_irrefl _)
    · exact h1.1
  · intro ssc wg werr e he
    rw [save_refused st ssc wg werr e he]

/-- C3: `CheckHRS(hrst)` is decided by the lexicographic comparison of the
coordinate of the state with that of `hrst`, whatever the timestamp of `hrst`:
a greater state coordinate gives (false, regression error), a smaller one
(false, nil), and equal coordinates give (true, nil) when SignBytes and
Signature are both present and (false, "no SignBytes found") when SignBytes is
absent. -/
theorem checkHRS_by_comparison (st : SignState) (hrst : HRSTKey) :
    (hrst.hrs.lex < st.HRSKey.lex →
        ∃ e, st.CheckHRS hrst = .returned (false, some e) ∧ e.isCheckRegression = true) ∧
      (st.HRSKey.lex < hrst.hrs.lex → st.CheckHRS hrst = .returned (false, none)) ∧
      (st.HRSKey = hrst.hrs → st.SignBytes ≠ none → st.Signature ≠ none →
        st.CheckHRS hrst = .returned (true, none)) ∧
      (st.HRSKey = hrst.hrs → st.SignBytes = none →
        st.CheckHRS hrst = .returned (false, some .noSignBytes)) ∧
      ∀ t : Int, st.CheckHRS { hrst with Timestamp := t } = st.CheckHRS hrst := by
  refine ⟨checkHRS_of_greater st hrst, checkHRS_of_less st hrst, ?_, ?_, fun t => rfl⟩
  · intro heq hb hs
    rw [checkHRS_of_equal st hrst heq, if_pos hb, if_neg hs]
  · intro heq hb
    rw [checkHRS_of_equal st hrst heq, if_neg (by simp [hb])]

/-- C4: when `existingSignatureOrErrorIfRegression(hrst, b)` returns a
signature, the error is nil, the coordinate of `hrst` is the high-water mark,
`b` has the bytes of the SignBytes of the state, and the signature returned is
the Signature of the state. -/
theorem existingSignature_returned (c : Codec) (st : SignState) (hrst : HRSTKey)
    (b : ByteSlice) (sig : List Nat) (err : Option Error)
    (h : st.existingSignatureOrErrorIfRegression c hrst b = .returned (some sig, err)) :
    err = none ∧ hrst.hrs = st.HRSKey ∧ bytesOf b = bytesOf st.SignBytes ∧
      bytesEqual b st.SignBytes = true ∧ st.Signature = some sig := by
  unfold SignState.existingSignatureOrErrorIfRegression at h
  split at h
  · simp at h
  · simp at h
  · simp at h
  · next hchk =>
    have htrue := checkHRS_true st hrst none hchk
    split_ifs at h with hb
    · simp only [Outcome.returned.injEq, Prod.mk.injEq] at h
      refine ⟨h.2.symm, htrue.2.1.symm, ?_, hb, h.1⟩
      simpa [bytesEqual] using hb
    · split at h <;> simp at h

theorem existingSignature_returned_witness :
    (none : Option Error) = none ∧
      (HRSTKey.mk 1 0 2 77).hrs = (SignState.mk 1 0 2 none (some [66]) (some [2]) "/dev/null"
        fun _ => none).HRSKey ∧
      bytesOf (some [2]) = bytesOf (SignState.mk 1 0 2 none (some [66]) (some [2]) "/dev/null"
        fun _ => none).SignBytes ∧
      bytesEqual (some [2]) (SignState.mk 1 0 2 none (some [66]) (some [2]) "/dev/null"
        fun _ => none).SignBytes = true ∧
      (SignState.mk 1 0 2 none (some [66]) (some [2]) "/dev/null" fun _ => none).Signature
        = some [66] :=
  existingSignature_returned ⟨fun _ => .error "EOF", fun _ => .error "EOF"⟩
    (SignState.mk 1 0 2 none (some [66]) (some [2]) "/dev/null" fun _ => none)
    (HRSTKey.mk 1 0 2 77) (some [2]) [66] none (by decide)

/-- C5: replay at the high-water mark is idempotent: for a state whose
SignBytes and Signature are present and a request at the coordinate of the
state with any timestamp, `existingSignatureOrErrorIfRegression` called with the
SignBytes of the state returns (Signature, nil), whatever the payload decoder
is; in particular after Save (1, 0, 1, A, b1) and Save (1, 0, 2, B, b2) on an
empty state the call with ((1, 0, 2, T), b2) returns B. -/
theorem replay_returns_signature (c : Codec) (st : SignState) (t : Int)
    (hb : st.SignBytes ≠ none) (hs : st.Signature ≠ none) :
    st.existingSignatureOrErrorIfRegression c (HRSTKey.mk st.Height st.Round st.Step t)
        st.SignBytes = .returned (st.Signature, none) ∧
      ∀ (path : String) (wg1 wg2 : Bool) (werr1 werr2 : Option String) (A b1 : ByteSlice)
        (B b2 : List Nat) (T : Int),
        SignState.existingSignatureOrErrorIfRegression c
            (((emptySignState path).Save (SignStateConsensus.mk 1 0 1 A b1) wg1 werr1).state.Save
              (SignStateConsensus.mk 1 0 2 (some B) (some b2)) wg2 werr2).state
            (HRSTKey.mk 1 0 2 T) (some b2)
          = .returned (some B, none) := by
  have hrep : ∀ (s : SignState) (t : Int), s.SignBytes ≠ none → s.Signature ≠ none →
      s.existingSignatureOrErrorIfRegression c (HRSTKey.mk s.Height s.Round s.Step t)
        s.SignBytes = .returned (s.Signature, none) := by
    intro s t hb hs
    have hchk : s.CheckHRS (HRSTKey.mk s.Height s.Round s.Step t) = .returned (true, none) := by
      rw [checkHRS_of_equal s (HRSTKey.mk s.Height s.Round s.Step t) rfl, if_pos hb, if_neg hs]
    unfold SignState.existingSignatureOrErrorIfRegression
    rw [hchk]
    simp [bytesEqual]
  refine ⟨hrep st t hb hs, ?_⟩
  intro path wg1 wg2 werr1 werr2 A b1 B b2 T
  have h1 : (emptySignState path).GetErrorIfLessOrEqual 1 0 1 = none := rfl
  have hs1 := save_state_of_admitted (emptySignState path) (SignStateConsensus.mk 1 0 1 A b1)
    wg1 werr1 h1
  rw [hs1]
  have h2 : SignState.GetErrorIfLessOrEqual
      ((emptySignState path).cacheAndMarshal (SignStateConsensus.mk 1 0 1 A b1)).1 1 0 2
        = none := rfl
  have hs2 := save_state_of_admitted _ (SignStateConsensus.mk 1 0 2 (some B) (some b2))
    wg2 werr2 h2
  rw [hs2]
  exact hrep _ T (by simp [SignState.cacheAndMarshal]) (by simp [SignState.cacheAndMarshal])

theorem replay_returns_signature_witness :
    (SignState.mk 1 0 2 none (some [66]) (some [2]) "/dev/null"
        fun _ => none).existingSignatureOrErrorIfRegression
        ⟨fun _ => .error "EOF", fun _ => .error "EOF"⟩ (HRSTKey.mk 1 0 2 5) (some [2])
      = .returned (some [66], none) :=
  (replay_returns_signature ⟨fun _ => .error "EOF", fun _ => .error "EOF"⟩
    (SignState.mk 1 0 2 none (some [66]) (some [2]) "/dev/null" fun _ => none) 5
    (by decide) (by decide)).1

/-- C10: a refused `Save` is atomic: when `Save` returns an error, that error
is the regression error or the SameHRSError, the state after the call is the
state before it (Height, Round, Step, NoncePublic, Signature, SignBytes and the
cache), and nothing is written to disk. -/
theorem save_refused_unchanged (st : SignState) (ssc : SignStateConsensus) (wg : Bool)
    (werr : Option String) (e : Error) (h : (st.Save ssc wg werr).ret = .returned (some e)) :
    (e = .regressionNotAllowed ∨ e = .sameHRS ssc.HRSKey) ∧
      (st.Save ssc wg werr).state = st ∧
      (st.Save ssc wg werr).disk = .returned none := by
  have hg := save_ret_error_refused st ssc wg werr e h
  rw [save_refused st ssc wg werr e hg]
  refine ⟨?_, rfl, rfl⟩
  rcases getErrorIfLessOrEqual_cases st ssc.Height ssc.Round ssc.Step with h1 | h1 | h1
  · rw [h1.1] at hg
    exact Or.inl (Option.some.inj hg).symm
  · rw [h1.1] at hg
    exact Or.inr (Option.some.inj hg).symm
  · rw [h1.1] at hg; simp at hg

theorem save_refused_unchanged_witness :
    (Error.sameHRS (HRSKey.mk 1 0 2) = .regressionNotAllowed ∨
        Error.sameHRS (HRSKey.mk 1 0 2)
          = .sameHRS (SignStateConsensus.mk 1 0 2 (some [67]) (some [3])).HRSKey) ∧
      ((SignState.mk 1 0 2 none (some [66]) (some [2]) "/tmp/state.json" fun _ => none).Save
        (SignStateConsensus.mk 1 0 2 (some [67]) (some [3])) false none).state
        = (SignState.mk 1 0 2 none (some [66]) (some [2]) "/tmp/state.json" fun _ => none) ∧
      ((SignState.mk 1 0 2 none (some [66]) (some [2]) "/tmp/state.json" fun _ => none).Save
        (SignStateConsensus.mk 1 0 2 (some [67]) (some [3])) false none).disk
        = .returned none :=
  save_refused_unchanged
    (SignState.mk 1 0 2 none (some [66]) (some [2]) "/tmp/state.json" fun _ => none)
    (SignStateConsensus.mk 1 0 2 (some [67]) (some [3])) false none
    (.sameHRS (HRSKey.mk 1 0 2)) (by decide)

/-! ## The timestamp rule -/

theorem vote_eq_after_substitution (a b : CanonicalVote) :
    ({ b with Timestamp := a.Timestamp } : CanonicalVote) = a ↔ voteEqExceptTimestamp a b := by
  cases a; cases b
  simp only [voteEqExceptTimestamp, CanonicalVote.mk.injEq]
  constructor
  · rintro ⟨h1, h2, h3, h4, -, h6⟩
    exact ⟨h1.symm, h2.symm, h3.symm, h4.symm, h6.symm⟩
  · rintro ⟨h1, h2, h3, h4, h6⟩
    exact ⟨h1.symm, h2.symm, h3.symm, h4.symm, trivial, h6.symm⟩

theorem proposal_eq_after_substitution (a b : CanonicalProposal) :
    ({ b with Timestamp := a.Timestamp } : CanonicalProposal) = a ↔
      proposalEqExceptTimestamp a b := by
  cases a; cases b
  simp only [proposalEqExceptTimestamp, CanonicalProposal.mk.injEq]
  constructor
  · rintro ⟨h1, h2, h3, h4, h5, -, h7⟩
    exact ⟨h1.symm, h2.symm, h3.symm, h4.symm, h5.symm, h7.symm⟩
  · rintro ⟨h1, h2, h3, h4, h5, h7⟩
    exact ⟨h1.symm, h2.symm, h3.symm, h4.symm, h5.symm, trivial, h7.symm⟩

theorem checkVote_nil_iff (c : Codec) (last new : ByteSlice) :
    checkVoteOnlyDifferByTimestamp c last new = none ↔
      ∃ a b, c.unmarshalVote (bytesOf last) = .ok a ∧ c.unmarshalVote (bytesOf new) = .ok b ∧
        voteEqExceptTimestamp a b := by
  unfold checkVoteOnlyDifferByTimestamp
  cases hl : c.unmarshalVote (bytesOf last) with
  | error e => simp
  | ok a =>
    cases hn : c.unmarshalVote (bytesOf new) with
    | error e => simp
    | ok b =>
      simp only [Except.ok.injEq, exists_and_left, exists_eq_left']
      rw [← vote_eq_after_substitution a b]
      by_cases heq : ({ b with Timestamp := a.Timestamp } : CanonicalVote) = a
      · simp [heq]
      · simp only [heq, if_false, iff_false]
        split_ifs <;> simp

theorem checkProposal_nil_iff (c : Codec) (last new : ByteSlice) :
    checkProposalOnlyDifferByTimestamp c last new = none ↔
      ∃ a b, c.unmarshalProposal (bytesOf last) = .ok a ∧
        c.unmarshalProposal (bytesOf new) = .ok b ∧ proposalEqExceptTimestamp a b := by
  unfold checkProposalOnlyDifferByTimestamp
  cases hl : c.unmarshalProposal (bytesOf last) with
  | error e => simp
  | ok a =>
    cases hn : c.unmarshalProposal (bytesOf new) with
    | error e => simp
    | ok b =>
      simp only [Except.ok.injEq, exists_and_left, exists_eq_left']
      rw [← proposal_eq_after_substitution a b]
      by_cases heq : ({ b with Timestamp := a.Timestamp } : CanonicalProposal) = a
      · simp [heq]
      · simp [heq]

theorem onlyDifferByTimestamp_nil_iff (c : Codec) (step : Int) (last new : ByteSlice) :
    onlyDifferByTimestamp c step last new = none ↔ differOnlyByTimestamp c step last new := by
  unfold onlyDifferByTimestamp differOnlyByTimestamp
  simp only [stepPropose, stepPrevote, stepPrecommit]
  by_cases h1 : step = 1
  · rw [if_pos h1, checkProposal_nil_iff]
    constructor
    · intro h; exact Or.inl ⟨h1, h⟩
    · rintro (⟨-, h⟩ | ⟨h23, -⟩)
      · exact h
      · omega
  · rw [if_neg h1]
    by_cases h23 : step = 2 ∨ step = 3
    · rw [if_pos h23, checkVote_nil_iff]
      constructor
      · intro h; exact Or.inr ⟨h23, h⟩
      · rintro (⟨h, -⟩ | ⟨-, h⟩)
        · exact absurd h h1
        · exact h
    · rw [if_neg h23]
      constructor
      · intro h; simp at h
      · rintro (⟨h, -⟩ | ⟨h, -⟩)
        · exact absurd h h1
        · exact absurd h h23

theorem existingSignature_of_same (c : Codec) (st : SignState) (hrst : HRSTKey) (b : ByteSlice)
    (hk : hrst.hrs = st.HRSKey) (hne : bytesEqual b st.SignBytes = false)
    (hb : st.SignBytes ≠ none) (hs : st.Signature ≠ none) :
    st.existingSignatureOrErrorIfRegression c hrst b =
      .returned (none, onlyDifferByTimestamp c st.Step st.SignBytes b) := by
  have hchk : st.CheckHRS hrst = .returned (true, none) := by
    rw [checkHRS_of_equal st hrst hk.symm, if_pos hb, if_neg hs]
  unfold SignState.existingSignatureOrErrorIfRegression
  rw [hchk]
  simp only [hne, SignState.OnlyDifferByTimestamp]
  cases onlyDifferByTimestamp c st.Step st.SignBytes b <;> simp

/-- C6 (as amended): `onlyDifferByTimestamp(step, last, new)` returns nil if and
only if both payloads decode as the canonical structure of the step and the
decoded structures agree in every field other than Timestamp. Consequently,
for a request at the high-water mark whose bytes differ from the SignBytes of
the state: when SignBytes and Signature are both present,
`existingSignatureOrErrorIfRegression` returns (none, nil) exactly in that case
and (none, error) otherwise; when SignBytes is absent it returns the
"no SignBytes found" error. -/
theorem resign_iff_only_timestamp (c : Codec) (step : Int) (last new : ByteSlice)
    (st : SignState) (hrst : HRSTKey) (b : ByteSlice) :
    (onlyDifferByTimestamp c step last new = none ↔ differOnlyByTimestamp c step last new) ∧
      (hrst.hrs = st.HRSKey → bytesEqual b st.SignBytes = false →
        st.SignBytes ≠ none → st.Signature ≠ none →
          (st.existingSignatureOrErrorIfRegression c hrst b = .returned (none, none) ↔
              differOnlyByTimestamp c st.Step st.SignBytes b) ∧
            (¬ differOnlyByTimestamp c st.Step st.SignBytes b →
              ∃ e, st.existingSignatureOrErrorIfRegression c hrst b
                = .returned (none, some e))) ∧
      (hrst.hrs = st.HRSKey → st.SignBytes = none →
        st.existingSignatureOrErrorIfRegression c hrst b
          = .returned (none, some .noSignBytes)) := by
  refine ⟨onlyDifferByTimestamp_nil_iff c step last new, ?_, ?_⟩
  · intro hk hne hb hs
    rw [existingSignature_of_same c st hrst b hk hne hb hs,
      ← onlyDifferByTimestamp_nil_iff c st.Step st.SignBytes b]
    constructor
    · constructor
      · intro h
        simpa using h
      · intro h
        rw [h]
    · intro hnot
      cases hres : onlyDifferByTimestamp c st.Step st.SignBytes b with
      | none => exact absurd hres hnot
      | some e => exact ⟨e, rfl⟩
  · intro hk hb
    have hchk : st.CheckHRS hrst = .returned (false, some .noSignBytes) := by
      rw [checkHRS_of_equal st hrst hk.symm, if_neg (by simp [hb])]
    unfold SignState.existingSignatureOrErrorIfRegression
    rw [hchk]

theorem resign_iff_only_timestamp_witness :
    SignState.existingSignatureOrErrorIfRegression fourByteCodec
        (SignState.mk 2 0 2 none (some [66]) (some [2, 2, 0, 7]) "/dev/null" fun _ => none)
        (HRSTKey.mk 2 0 2 9) (some [2, 2, 0, 8]) = .returned (none, none) ↔
      differOnlyByTimestamp fourByteCodec 2 (some [2, 2, 0, 7]) (some [2, 2, 0, 8]) :=
  ((resign_iff_only_timestamp fourByteCodec 2 (some [2, 2, 0, 7]) (some [2, 2, 0, 8])
    (SignState.mk 2 0 2 none (some [66]) (some [2, 2, 0, 7]) "/dev/null" fun _ => none)
    (HRSTKey.mk 2 0 2 9) (some [2, 2, 0, 8])).2.1 (by decide) (by decide) (by decide)
    (by decide)).1

/-- C6 (as stated) fails: the state below holds SignBytes without a Signature;
the request is at its high-water mark, its bytes differ from the SignBytes of
the state only in the timestamp, and the call neither returns (none, nil) nor
an error: it panics. -/
theorem existingSignature_panics_without_signature :
    (HRSTKey.mk 2 0 2 9).hrs
        = (SignState.mk 2 0 2 none none (some [2, 2, 0, 7]) "/dev/null" fun _ => none).HRSKey ∧
      bytesEqual (some [2, 2, 0, 8])
        (SignState.mk 2 0 2 none none (some [2, 2, 0, 7]) "/dev/null" fun _ => none).SignBytes
        = false ∧
      differOnlyByTimestamp fourByteCodec 2 (some [2, 2, 0, 7]) (some [2, 2, 0, 8]) ∧
      SignState.existingSignatureOrErrorIfRegression fourByteCodec
        (SignState.mk 2 0 2 none none (some [2, 2, 0, 7]) "/dev/null" fun _ => none)
        (HRSTKey.mk 2 0 2 9) (some [2, 2, 0, 8])
        = .panicked "pv: Signature is nil but SignBytes is not!" :=
  ⟨by decide, by decide, (onlyDifferByTimestamp_nil_iff _ _ _ _).1 (by decide), by decide⟩

/-- C7: the timestamp rule is reflexive: for a payload that decodes as the
canonical structure of its step (a proposal for step 1, a vote for steps 2 and
3), `onlyDifferByTimestamp(step, x, x)` returns nil. -/
theorem onlyDifferByTimestamp_refl (c : Codec) (step : Int) (x : ByteSlice)
    (hdec : decodesForStep c step x) :
    onlyDifferByTimestamp c step x x = none := by
  rw [onlyDifferByTimestamp_nil_iff]
  rcases hdec with ⟨h1, a, ha⟩ | ⟨h23, a, ha⟩
  · exact Or.inl ⟨h1, a, a, ha, ha, rfl, rfl, rfl, rfl, rfl, rfl⟩
  · exact Or.inr ⟨h23, a, a, ha, ha, rfl, rfl, rfl, rfl, rfl⟩

theorem onlyDifferByTimestamp_refl_witness :
    onlyDifferByTimestamp fourByteCodec 2 (some [2, 2, 0, 7]) (some [2, 2, 0, 7]) = none :=
  onlyDifferByTimestamp_refl fourByteCodec 2 (some [2, 2, 0, 7])
    (Or.inr ⟨Or.inl rfl, _, rfl⟩)

/-! ## The cache -/

theorem wrapInt64_of_inRange (x : Int) (h : isInt64 x) : wrapInt64 x = x := by
  unfold isInt64 at h
  unfold wrapInt64
  omega

theorem le_wrapInt64_sub (x : Int) (h : isInt64 x) :
    x - blocksToCache ≤ wrapInt64 (x - blocksToCache) := by
  unfold isInt64 at h
  unfold wrapInt64 blocksToCache
  omega

theorem cacheAndMarshal_cache (st : SignState) (ssc : SignStateConsensus) (k : HRSKey) :
    (st.cacheAndMarshal ssc).1.cache k =
      if k.Height < wrapInt64 (ssc.Height - blocksToCache) then none
      else if k = ssc.HRSKey then some ssc else st.cache k := rfl

/-- Away from the wrap-around: when `Save` returns nil and `ssc.Height - 3`
stays within 64 bits, that is `ssc.Height >= -2^63 + 3`, `GetFromCache` called
next with the coordinate of `ssc` returns that coordinate together with an
entry that is present and equal to `ssc` in all five fields. -/
theorem save_then_getFromCache (st : SignState) (ssc : SignStateConsensus) (wg : Bool)
    (werr : Option String) (hr : ssc.inRange)
    (hlo : -9223372036854775808 + 3 ≤ ssc.Height)
    (h : (st.Save ssc wg werr).ret = .returned none) :
    (st.Save ssc wg werr).state.GetFromCache ssc.HRSKey = (ssc.HRSKey, some ssc) := by
  have hg := save_ret_nil_admitted st ssc wg werr h
  rw [save_state_of_admitted st ssc wg werr hg]
  have hw : wrapInt64 (ssc.Height - blocksToCache) = ssc.Height - blocksToCache := by
    apply wrapInt64_of_inRange
    have h64 := hr.1
    unfold isInt64 at h64 ⊢
    unfold blocksToCache
    omega
  have hc : (st.cacheAndMarshal ssc).1.cache ssc.HRSKey = some ssc := by
    rw [cacheAndMarshal_cache, hw, if_neg, if_pos rfl]
    show ¬ ssc.Height < ssc.Height - blocksToCache
    unfold blocksToCache
    omega
  unfold SignState.GetFromCache
  rw [hc]
  rfl

theorem save_then_getFromCache_example :
    ((emptySignState "/dev/null").Save (SignStateConsensus.mk 1 0 1 (some [65]) (some [1]))
        false none).state.GetFromCache (SignStateConsensus.mk 1 0 1 (some [65]) (some [1])).HRSKey
      = ((SignStateConsensus.mk 1 0 1 (some [65]) (some [1])).HRSKey,
          some (SignStateConsensus.mk 1 0 1 (some [65]) (some [1]))) :=
  save_then_getFromCache (emptySignState "/dev/null")
    (SignStateConsensus.mk 1 0 1 (some [65]) (some [1])) false none (by decide) (by decide)
    (by decide)

/-- C8: a `Save` that returns nil should leave the record in the cache, so that
`GetFromCache` for its coordinate returns it. On a state at the least 64-bit
height the code does not: `Save` of a record one height above returns nil,
`ssc.Height - 3` wraps around to a large positive bound, the eviction loop
deletes the entry just inserted, and `GetFromCache` for the coordinate of the
record finds no entry. -/
theorem save_evicts_own_entry_on_wraparound :
    (SignStateConsensus.mk (-9223372036854775807) 0 1 (some [65]) (some [1])).inRange ∧
      ((SignState.mk (-9223372036854775808) 0 1 none none none "/dev/null" fun _ => none).Save
        (SignStateConsensus.mk (-9223372036854775807) 0 1 (some [65]) (some [1]))
        false none).ret = .returned none ∧
      ((SignState.mk (-9223372036854775808) 0 1 none none none "/dev/null" fun _ => none).Save
        (SignStateConsensus.mk (-9223372036854775807) 0 1 (some [65]) (some [1]))
        false none).state.GetFromCache
          (SignStateConsensus.mk (-9223372036854775807) 0 1 (some [65]) (some [1])).HRSKey
        = ((SignStateConsensus.mk (-9223372036854775807) 0 1 (some [65]) (some [1])).HRSKey,
            none) :=
  ⟨by decide, by decide, by decide⟩

theorem reachable_cache_inv (st : SignState) (hreach : Reachable st) :
    ∀ (k : HRSKey) (e : SignStateConsensus), st.cache k = some e →
      e.HRSKey = k ∧ st.Height - blocksToCache ≤ k.Height := by
  induction hreach with
  | created filepath =>
    intro k e hc
    simp [emptySignState] at hc
  | fresh st0 =>
    intro k e hc
    simp only [SignState.FreshCache, mapInsert] at hc
    split_ifs at hc with hk
    · simp only [Option.some.injEq] at hc
      subst hc
      subst hk
      refine ⟨rfl, ?_⟩
      simp only [SignState.FreshCache, blocksToCache]
      omega
  | save st0 ssc wg werr _ hr ih =>
    intro k e hc
    cases hg : st0.GetErrorIfLessOrEqual ssc.Height ssc.Round ssc.Step with
    | some err =>
      rw [save_refused st0 ssc wg werr err hg] at hc ⊢
      exact ih k e hc
    | none =>
      rw [save_state_of_admitted st0 ssc wg werr hg] at hc ⊢
      rw [cacheAndMarshal_cache] at hc
      have hwrap := le_wrapInt64_sub ssc.Height hr.1
      split_ifs at hc with hlt hk
      · simp only [Option.some.injEq] at hc
        subst hc
        refine ⟨hk.symm, ?_⟩
        show ssc.Height - blocksToCache ≤ k.Height
        omega
      · refine ⟨(ih k e hc).1, ?_⟩
        show ssc.Height - blocksToCache ≤ k.Height
        omega

/-- C9: the retention invariant of the cache: in every sign state reached from
the empty state of `LoadOrCreateSignState` or from a result of `FreshCache` by
calls of `Save`, every cache entry has a Height of at least the Height of the
state minus 3 (the entry being stored under its own coordinate). -/
theorem cache_retention (st : SignState) (hreach : Reachable st) (k : HRSKey)
    (e : SignStateConsensus) (hc : st.cache k = some e) :
    st.Height - 3 ≤ e.Height ∧ st.Height - 3 ≤ k.Height ∧ e.HRSKey = k := by
  have hinv := reachable_cache_inv st hreach k e hc
  have hk : e.Height = k.Height := by rw [← hinv.1]; rfl
  have hb := hinv.2
  unfold blocksToCache at hb
  exact ⟨by omega, hb, hinv.1⟩

theorem cache_retention_witness :
    ((emptySignState "/dev/null").Save (SignStateConsensus.mk 5 0 1 (some [65]) (some [1]))
        false none).state.Height - 3 ≤ (SignStateConsensus.mk 5 0 1 (some [65]) (some [1])).Height ∧
      ((emptySignState "/dev/null").Save (SignStateConsensus.mk 5 0 1 (some [65]) (some [1]))
        false none).state.Height - 3 ≤ (HRSKey.mk 5 0 1).Height ∧
      (SignStateConsensus.mk 5 0 1 (some [65]) (some [1])).HRSKey = HRSKey.mk 5 0 1 :=
  cache_retention _
    (Reachable.save (emptySignState "/dev/null")
      (SignStateConsensus.mk 5 0 1 (some [65]) (some [1])) false none
      (Reachable.created "/dev/null") (by decide))
    (HRSKey.mk 5 0 1) (SignStateConsensus.mk 5 0 1 (some [65]) (some [1])) (by decide)

/-! ## Signing again at the high-water mark -/

theorem getErrorIfLessOrEqual_same (st : SignState) :
    st.GetErrorIfLessOrEqual st.Height st.Round st.Step = some (.sameHRS st.HRSKey) := by
  rcases getErrorIfLessOrEqual_cases st st.Height st.Round st.Step with h1 | h1 | h1
  · exact absurd h1.2 (lt_irrefl _)
  · exact h1.1
  · exact absurd h1.2 (lt_irrefl _)

/-- C11 (as amended): let the state hold a prevote with canonical vote V and a
signature, and let V2 be a canonical vote that agrees with V except for its
Timestamp. Then `existingSignatureOrErrorIfRegression` at the coordinate of the
state with the bytes of V2 returns (none, nil); a following `Save` at that same
coordinate with the bytes of V2 and a fresh signature is refused with the
SameHRSError and leaves the state, its Signature and SignBytes included, as it
was, and writes nothing. -/
theorem resign_then_save_refused (c : Codec) (st : SignState) (t : Int)
    (V V2 : CanonicalVote) (b sig2 : ByteSlice)
    (hstep : st.Step = 2) (hb : st.SignBytes ≠ none) (hsig : st.Signature ≠ none)
    (hV : c.unmarshalVote (bytesOf st.SignBytes) = .ok V)
    (hV2 : c.unmarshalVote (bytesOf b) = .ok V2)
    (heq : voteEqExceptTimestamp V V2) (hts : V2.Timestamp ≠ V.Timestamp) :
    st.existingSignatureOrErrorIfRegression c (HRSTKey.mk st.Height st.Round st.Step t) b
        = .returned (none, none) ∧
      ∀ (wg : Bool) (werr : Option String),
        st.Save (SignStateConsensus.mk st.Height st.Round st.Step sig2 b) wg werr
          = { state := st, ret := .returned (some (.sameHRS st.HRSKey)),
              disk := .returned none } := by
  constructor
  · have hne : bytesEqual b st.SignBytes = false := by
      unfold bytesEqual
      rw [decide_eq_false_iff_not]
      intro hbytes
      rw [hbytes, hV] at hV2
      exact hts (by rw [← Except.ok.inj hV2])
    rw [existingSignature_of_same c st (HRSTKey.mk st.Height st.Round st.Step t) b rfl hne hb
      hsig]
    have hrule : onlyDifferByTimestamp c st.Step st.SignBytes b = none :=
      (onlyDifferByTimestamp_nil_iff c st.Step st.SignBytes b).2
        (Or.inr ⟨Or.inl hstep, V, V2, hV, hV2, heq⟩)
    rw [hrule]
  · intro wg werr
    exact save_refused st _ wg werr _ (getErrorIfLessOrEqual_same st)

theorem resign_then_save_refused_witness :
    SignState.existingSignatureOrErrorIfRegression fourByteCodec
        (SignState.mk 2 0 2 none (some [66]) (some [2, 2, 0, 7]) "/dev/null" fun _ => none)
        (HRSTKey.mk 2 0 2 9) (some [2, 2, 0, 8]) = .returned (none, none) ∧
      ∀ (wg : Bool) (werr : Option String),
        (SignState.mk 2 0 2 none (some [66]) (some [2, 2, 0, 7]) "/dev/null" fun _ => none).Save
            (SignStateConsensus.mk 2 0 2 (some [67]) (some [2, 2, 0, 8])) wg werr
          = { state := SignState.mk 2 0 2 none (some [66]) (some [2, 2, 0, 7]) "/dev/null"
                fun _ => none,
              ret := .returned (some (.sameHRS (HRSKey.mk 2 0 2))),
              disk := .returned none } :=
  resign_then_save_refused fourByteCodec
    (SignState.mk 2 0 2 none (some [66]) (some [2, 2, 0, 7]) "/dev/null" fun _ => none) 9
    (CanonicalVote.mk 2 2 0 none 7 "") (CanonicalVote.mk 2 2 0 none 8 "")
    (some [2, 2, 0, 8]) (some [67]) rfl (by decide) (by decide) rfl rfl (by decide) (by decide)

/-- C11 (as stated) fails: the state holds the prevote [2, 2, 0, 7] with a
signature, the vote [2, 2, 0, 8] differs from it in the timestamp only and the
check for an existing signature returns (none, nil), yet `Save` at the same
coordinate with the new bytes and a fresh signature returns the SameHRSError
and the Signature and SignBytes of the state stay the old ones. -/
theorem save_at_same_coordinate_is_refused :
    SignState.existingSignatureOrErrorIfRegression fourByteCodec
        (SignState.mk 2 0 2 none (some [66]) (some [2, 2, 0, 7]) "/dev/null" fun _ => none)
        (HRSTKey.mk 2 0 2 9) (some [2, 2, 0, 8]) = .returned (none, none) ∧
      ((SignState.mk 2 0 2 none (some [66]) (some [2, 2, 0, 7]) "/dev/null" fun _ => none).Save
          (SignStateConsensus.mk 2 0 2 (some [67]) (some [2, 2, 0, 8])) false none).ret
        = .returned (some (.sameHRS (HRSKey.mk 2 0 2))) ∧
      ((SignState.mk 2 0 2 none (some [66]) (some [2, 2, 0, 7]) "/dev/null" fun _ => none).Save
          (SignStateConsensus.mk 2 0 2 (some [67]) (some [2, 2, 0, 8])) false none).state.Signature
        = some [66] ∧
      ((SignState.mk 2 0 2 none (some [66]) (some [2, 2, 0, 7]) "/dev/null" fun _ => none).Save
          (SignStateConsensus.mk 2 0 2 (some [67]) (some [2, 2, 0, 8])) false none).state.SignBytes
        = some [2, 2, 0, 7] :=
  ⟨by decide, by decide, by decide, by decide⟩

/-! ## The diagnosis of a conflict -/

theorem checkVote_of_conflict (c : Codec) (last new : ByteSlice) (a b : CanonicalVote)
    (hl : c.unmarshalVote (bytesOf last) = .ok a) (hn : c.unmarshalVote (bytesOf new) = .ok b)
    (hne : ¬ voteEqExceptTimestamp a b) :
    checkVoteOnlyDifferByTimestamp c last new = some (voteConflictError last new a b) := by
  have hsub : ¬ ({ b with Timestamp := a.Timestamp } : CanonicalVote) = a := fun h =>
    hne ((vote_eq_after_substitution a b).1 h)
  unfold checkVoteOnlyDifferByTimestamp voteConflictError
  rw [hl, hn]
  simp only [hsub, if_false]
  split_ifs <;> rfl

theorem checkProposal_of_conflict (c : Codec) (last new : ByteSlice) (a b : CanonicalProposal)
    (hl : c.unmarshalProposal (bytesOf last) = .ok a)
    (hn : c.unmarshalProposal (bytesOf new) = .ok b)
    (hne : ¬ proposalEqExceptTimestamp a b) :
    checkProposalOnlyDifferByTimestamp c last new
      = some (newConflictingDataError last new) := by
  have hsub : ¬ ({ b with Timestamp := a.Timestamp } : CanonicalProposal) = a := fun h =>
    hne ((proposal_eq_after_substitution a b).1 h)
  unfold checkProposalOnlyDifferByTimestamp
  rw [hl, hn]
  simp [hsub]

theorem onlyDifferByTimestamp_vote (c : Codec) (step : Int) (last new : ByteSlice)
    (hstep : step = 2 ∨ step = 3) :
    onlyDifferByTimestamp c step last new = checkVoteOnlyDifferByTimestamp c last new := by
  unfold onlyDifferByTimestamp
  simp only [stepPropose, stepPrevote, stepPrecommit]
  rw [if_neg (by omega), if_pos hstep]

theorem onlyDifferByTimestamp_proposal (c : Codec) (last new : ByteSlice) :
    onlyDifferByTimestamp c 1 last new = checkProposalOnlyDifferByTimestamp c last new := by
  unfold onlyDifferByTimestamp
  simp [stepPropose]

/-- C12 (as amended): of the structural conflicts only the generic one is
reported with a ConflictingDataError. For step 1, two proposals that decode and
still differ after the timestamp substitution give a ConflictingDataError. For
steps 2 and 3, two votes that decode and still differ give an error that is a
ConflictingDataError exactly in the generic sub-case (block ids both nil or
both present, with equal hashes); in the sub-cases nil against non-nil block id
and differing block ids the error is a plain error value. -/
theorem conflict_error_kind (c : Codec) (last new : ByteSlice) :
    (∀ a b : CanonicalProposal, c.unmarshalProposal (bytesOf last) = .ok a →
        c.unmarshalProposal (bytesOf new) = .ok b → ¬ proposalEqExceptTimestamp a b →
        ∃ e, onlyDifferByTimestamp c 1 last new = some e ∧ e.kind = .conflictingDataError) ∧
      ∀ (step : Int) (a b : CanonicalVote), step = 2 ∨ step = 3 →
        c.unmarshalVote (bytesOf last) = .ok a → c.unmarshalVote (bytesOf new) = .ok b →
        ¬ voteEqExceptTimestamp a b →
        ∃ e, onlyDifferByTimestamp c step last new = some e ∧
          (e.kind = .conflictingDataError ↔
            ((a.BlockID = none ↔ b.BlockID = none) ∧ getHash a.BlockID = getHash b.BlockID)) ∧
          (e.kind ≠ .conflictingDataError → e.kind = .errorString) := by
  constructor
  · intro a b hl hn hne
    refine ⟨newConflictingDataError last new, ?_, rfl⟩
    rw [onlyDifferByTimestamp_proposal, checkProposal_of_conflict c last new a b hl hn hne]
  · intro step a b hstep hl hn hne
    refine ⟨voteConflictError last new a b, ?_, ?_, ?_⟩
    · rw [onlyDifferByTimestamp_vote c step last new hstep,
        checkVote_of_conflict c last new a b hl hn hne]
    · unfold voteConflictError
      split_ifs with h1 h2 h3
      · simp only [Error.kind, false_iff, reduceCtorEq]
        rintro ⟨hiff, -⟩
        exact h1.2 (hiff.2 h1.1)
      · simp only [Error.kind, false_iff, reduceCtorEq]
        rintro ⟨hiff, -⟩
        exact h2.1 (hiff.1 h2.2)
      · simp only [Error.kind, false_iff, reduceCtorEq]
        rintro ⟨-, hh⟩
        exact h3 hh
      · simp only [newConflictingDataError, Error.kind, true_iff]
        refine ⟨?_, not_not.1 h3⟩
        constructor
        · intro ha
          by_contra hb
          exact h2 ⟨hb, ha⟩
        · intro hb
          by_contra ha
          exact h1 ⟨hb, ha⟩
    · unfold voteConflictError
      split_ifs <;> simp [Error.kind, newConflictingDataError]

theorem conflict_error_kind_witness :
    ∃ e, onlyDifferByTimestamp blockHashCodec 2 (some [2, 3, 0, 7, 170]) (some [2, 4, 0, 8, 170])
        = some e ∧
      (e.kind = .conflictingDataError ↔
        (((CanonicalVote.mk 2 3 0 (some ⟨[170], ⟨0, []⟩⟩) 7 "").BlockID = none ↔
            (CanonicalVote.mk 2 4 0 (some ⟨[170], ⟨0, []⟩⟩) 8 "").BlockID = none) ∧
          getHash (CanonicalVote.mk 2 3 0 (some ⟨[170], ⟨0, []⟩⟩) 7 "").BlockID
            = getHash (CanonicalVote.mk 2 4 0 (some ⟨[170], ⟨0, []⟩⟩) 8 "").BlockID)) ∧
      (e.kind ≠ .conflictingDataError → e.kind = .errorString) :=
  (conflict_error_kind blockHashCodec (some [2, 3, 0, 7, 170]) (some [2, 4, 0, 8, 170])).2 2
    (CanonicalVote.mk 2 3 0 (some ⟨[170], ⟨0, []⟩⟩) 7 "")
    (CanonicalVote.mk 2 4 0 (some ⟨[170], ⟨0, []⟩⟩) 8 "") (Or.inl rfl) rfl rfl (by decide)

/-- C12 (as stated) fails: the two prevotes below decode and differ in the hash
of their block ids, and the error of `onlyDifferByTimestamp` is the
"differing block IDs" error, whose kind is that of a plain error value and not
ConflictingDataError; the same holds for a signed block id against a nil one. -/
theorem differing_block_ids_not_conflictingData :
    onlyDifferByTimestamp blockHashCodec 2 (some [2, 3, 0, 7, 170]) (some [2, 3, 0, 8, 187])
        = some (.differingBlockIDs [170] [187]) ∧
      (Error.differingBlockIDs [170] [187]).kind = .errorString ∧
      (Error.differingBlockIDs [170] [187]).kind ≠ .conflictingDataError ∧
      onlyDifferByTimestamp blockHashCodec 2 (some [2, 3, 0, 7, 170]) (some [2, 3, 0, 8])
        = some .signedNonNilRefuseNil ∧
      Error.signedNonNilRefuseNil.kind ≠ .conflictingDataError :=
  ⟨by decide, by decide, by decide, by decide, by decide⟩

/-- C17: the order of the diagnosis for two votes that decode and are not equal
after the timestamp of the new one is replaced by that of the last one:
(1) last block id non-nil and new one nil gives the "already signed vote with
non-nil BlockID" error; (2) last nil and new non-nil gives the symmetric error;
(3) both non-nil with differing hashes gives the "differing block IDs" error;
(4) otherwise (both nil, or both non-nil with equal hashes) the generic
conflicting-data error, whose text carries both payloads in hexadecimal. -/
theorem vote_conflict_diagnosis (c : Codec) (last new : ByteSlice) (a b : CanonicalVote)
    (hl : c.unmarshalVote (bytesOf last) = .ok a) (hn : c.unmarshalVote (bytesOf new) = .ok b)
    (hne : ({ b with Timestamp := a.Timestamp } : CanonicalVote) ≠ a) :
    (a.BlockID ≠ none → b.BlockID = none →
        checkVoteOnlyDifferByTimestamp c last new = some .signedNonNilRefuseNil) ∧
      (a.BlockID = none → b.BlockID ≠ none →
        checkVoteOnlyDifferByTimestamp c last new = some .signedNilRefuseNonNil) ∧
      (a.BlockID ≠ none → b.BlockID ≠ none → getHash a.BlockID ≠ getHash b.BlockID →
        checkVoteOnlyDifferByTimestamp c last new
          = some (.differingBlockIDs (getHash a.BlockID) (getHash b.BlockID))) ∧
      ((a.BlockID = none ∧ b.BlockID = none) ∨
          (a.BlockID ≠ none ∧ b.BlockID ≠ none ∧ getHash a.BlockID = getHash b.BlockID) →
        checkVoteOnlyDifferByTimestamp c last new = some (newConflictingDataError last new) ∧
          (newConflictingDataError last new).kind = .conflictingDataError ∧
          (newConflictingDataError last new).conflictingDataText
            = some ("conflicting data. existing: " ++ hexEncodeToString (bytesOf last) ++
                " - new: " ++ hexEncodeToString (bytesOf new))) := by
  have hdiff : ¬ voteEqExceptTimestamp a b := fun h => hne ((vote_eq_after_substitution a b).2 h)
  rw [checkVote_of_conflict c last new a b hl hn hdiff]
  unfold voteConflictError
  refine ⟨?_, ?_, ?_, ?_⟩
  · intro ha hb
    rw [if_pos ⟨hb, ha⟩]
  · intro ha hb
    rw [if_neg (fun h => hb h.1), if_pos ⟨hb, ha⟩]
  · intro ha hb hh
    rw [if_neg (fun h => hb h.1), if_neg (fun h => ha h.2), if_pos hh]
  · intro hcase
    refine ⟨?_, rfl, rfl⟩
    rcases hcase with ⟨ha, hb⟩ | ⟨ha, hb, hh⟩
    · rw [if_neg (fun h => h.2 ha), if_neg (fun h => h.1 hb), if_neg (by rw [ha, hb]; simp)]
    · rw [if_neg (fun h => hb h.1), if_neg (fun h => ha h.2), if_neg (by simp [hh])]

theorem vote_conflict_diagnosis_witness :
    checkVoteOnlyDifferByTimestamp blockHashCodec (some [2, 3, 0, 7, 170])
        (some [2, 4, 0, 8, 170])
      = some (newConflictingDataError (some [2, 3, 0, 7, 170]) (some [2, 4, 0, 8, 170])) ∧
      (newConflictingDataError (some [2, 3, 0, 7, 170]) (some [2, 4, 0, 8, 170])).kind
        = .conflictingDataError ∧
      (newConflictingDataError (some [2, 3, 0, 7, 170])
          (some [2, 4, 0, 8, 170])).conflictingDataText
        = some ("conflicting data. existing: " ++ hexEncodeToString (bytesOf (some [2, 3, 0, 7, 170]))
            ++ " - new: " ++ hexEncodeToString (bytesOf (some [2, 4, 0, 8, 170]))) :=
  (vote_conflict_diagnosis blockHashCodec (some [2, 3, 0, 7, 170]) (some [2, 4, 0, 8, 170])
    (CanonicalVote.mk 2 3 0 (some ⟨[170], ⟨0, []⟩⟩) 7 "")
    (CanonicalVote.mk 2 4 0 (some ⟨[170], ⟨0, []⟩⟩) 8 "") rfl rfl (by decide)).2.2.2
    (Or.inr ⟨by decide, by decide, by decide⟩)

/-! ## What Save and the loaders write -/

theorem save_disk_of_admitted (st : SignState) (ssc : SignStateConsensus) (wg : Bool)
    (werr : Option String)
    (h : st.GetErrorIfLessOrEqual ssc.Height ssc.Round ssc.Step = none) :
    (st.Save ssc wg werr).disk
      = (st.cacheAndMarshal ssc).1.save (st.cacheAndMarshal ssc).2 werr := by
  unfold SignState.Save
  rw [h]
  simp only
  split
  · rfl
  · split <;> simp_all

theorem save_written (st : SignState) (jsonBytes : SignStateJSON) (werr : Option String)
    (w : String × SignStateJSON) (h : st.save jsonBytes werr = .returned (some w)) :
    w = (st.filePath, jsonBytes) := by
  unfold SignState.save at h
  simp only at h
  split_ifs at h
  · simp at h
  · cases werr with
    | none =>
      simp only [Outcome.returned.injEq, Option.some.injEq] at h
      exact h.symm
    | some e => simp at h

theorem save_disk_written (st : SignState) (ssc : SignStateConsensus) (wg : Bool)
    (werr : Option String) (w : String × SignStateJSON)
    (h : (st.Save ssc wg werr).disk = .returned (some w)) :
    w = (st.filePath, SignStateJSON.mk ssc.Height ssc.Round ssc.Step st.NoncePublic
      ssc.Signature ssc.SignBytes) := by
  cases hg : st.GetErrorIfLessOrEqual ssc.Height ssc.Round ssc.Step with
  | some e =>
    rw [save_refused st ssc wg werr e hg] at h
    simp at h
  | none =>
    rw [save_disk_of_admitted st ssc wg werr hg] at h
    exact save_written _ _ werr w h

theorem save_cache_entries (st : SignState) (ssc : SignStateConsensus) (wg : Bool)
    (werr : Option String) (k : HRSKey) (e : SignStateConsensus)
    (h : (st.Save ssc wg werr).state.cache k = some e) :
    (k = ssc.HRSKey ∧ e = ssc) ∨ st.cache k = some e := by
  cases hg : st.GetErrorIfLessOrEqual ssc.Height ssc.Round ssc.Step with
  | some err =>
    rw [save_refused st ssc wg werr err hg] at h
    exact Or.inr h
  | none =>
    rw [save_state_of_admitted st ssc wg werr hg, cacheAndMarshal_cache] at h
    split_ifs at h with hlt hk
    · exact Or.inl ⟨hk, (Option.some.inj h).symm⟩
    · exact Or.inr h

theorem freshCache_cache (st : SignState) (k : HRSKey) :
    st.FreshCache.cache k =
      if k = HRSKey.mk st.Height st.Round st.Step then
        some (SignStateConsensus.mk st.Height st.Round st.Step st.Signature st.SignBytes)
      else none := rfl

/-- C13 (as amended): the empty state that `LoadOrCreateSignState` writes has
Step 0, and the entry that `FreshCache` seeds has the Step of its state. `Save`
does not check the Step: what a `Save` that returns nil writes and the new
high-water mark have the Step of `ssc`, and an entry of the cache after the
call is `ssc` or was in the cache before; so they have a Step in 1, 2, 3
whenever `ssc` has. -/
theorem persisted_step_follows_record (st : SignState) (ssc : SignStateConsensus) (wg : Bool)
    (werr : Option String) (hstep : validStep ssc.Step)
    (h : (st.Save ssc wg werr).ret = .returned none) :
    (∀ w, (st.Save ssc wg werr).disk = .returned (some w) → validStep w.2.step) ∧
      validStep (st.Save ssc wg werr).state.Step ∧
      (∀ k e, (st.Save ssc wg werr).state.cache k = some e →
        validStep e.Step ∨ st.cache k = some e) ∧
      (∀ (filepath : String) (readFile : Except String (Except String SignStateJSON))
          (werr0 : Option String) (w : String × SignStateJSON),
        (LoadOrCreateSignState filepath .notExist readFile werr0).disk = .returned (some w) →
          w.2.step = 0) ∧
      ∀ (s : SignState) (k : HRSKey) (e : SignStateConsensus),
        s.FreshCache.cache k = some e → e.Step = s.Step := by
  have hg := save_ret_nil_admitted st ssc wg werr h
  refine ⟨?_, ?_, ?_, ?_, ?_⟩
  · intro w hw
    rw [save_disk_written st ssc wg werr w hw]
    exact hstep
  · rw [save_state_of_admitted st ssc wg werr hg]
    exact hstep
  · intro k e hc
    rcases save_cache_entries st ssc wg werr k e hc with ⟨-, he⟩ | hold
    · rw [he]; exact Or.inl hstep
    · exact Or.inr hold
  · intro filepath readFile werr0 w hw
    unfold LoadOrCreateSignState at hw
    simp only at hw
    split at hw
    · simp at hw
    · next w0 hsave =>
      simp only [Outcome.returned.injEq] at hw
      subst hw
      rw [save_written _ _ werr0 w hsave]
      rfl
  · intro s k e hc
    rw [freshCache_cache] at hc
    split_ifs at hc
    rw [← Option.some.inj hc]

theorem persisted_step_follows_record_witness :
    validStep
      (("/tmp/state.json", SignStateJSON.mk 1 0 1 none (some [65]) (some [1]))
        : String × SignStateJSON).2.step :=
  (persisted_step_follows_record (emptySignState "/tmp/state.json")
    (SignStateConsensus.mk 1 0 1 (some [65]) (some [1])) false none (by decide) (by decide)).1
    ("/tmp/state.json", SignStateJSON.mk 1 0 1 none (some [65]) (some [1])) (by decide)

/-- C13 (as stated) fails: the state that `LoadOrCreateSignState` writes for a
missing file has Step 0, and `Save` admits, writes and caches a record of
Step 0 as well. -/
theorem persisted_step_zero :
    (LoadOrCreateSignState "/tmp/state.json" .notExist (.error "no such file") none).disk
        = .returned (some ("/tmp/state.json", SignStateJSON.mk 0 0 0 none none none)) ∧
      ¬ validStep (SignStateJSON.mk 0 0 0 none none none).step ∧
      ((emptySignState "/tmp/state.json").Save
          (SignStateConsensus.mk 1 0 0 (some [65]) (some [1])) false none).ret
        = .returned none ∧
      ((emptySignState "/tmp/state.json").Save
          (SignStateConsensus.mk 1 0 0 (some [65]) (some [1])) false none).disk
        = .returned (some ("/tmp/state.json",
            SignStateJSON.mk 1 0 0 none (some [65]) (some [1]))) ∧
      ((emptySignState "/tmp/state.json").Save
          (SignStateConsensus.mk 1 0 0 (some [65]) (some [1])) false none).state.cache
          (HRSKey.mk 1 0 0)
        = some (SignStateConsensus.mk 1 0 0 (some [65]) (some [1])) :=
  ⟨by decide, by decide, by decide, by decide, by decide⟩

/-- C14: `FreshCache` returns a state with the Height, Round, Step,
NoncePublic, Signature, SignBytes and filePath of the receiver and a cache of
exactly one entry, stored under (Height, Round, Step) and holding that
coordinate with the Signature and SignBytes of the receiver, whatever the cache
of the receiver held; hence the state that `LoadSignState` returns for a
readable file has the fields read, the path given, and a cache of exactly that
one entry for its high-water mark. -/
theorem freshCache_single_entry (st : SignState) (filepath : String) (js : SignStateJSON) :
    st.FreshCache.Height = st.Height ∧ st.FreshCache.Round = st.Round ∧
      st.FreshCache.Step = st.Step ∧ st.FreshCache.NoncePublic = st.NoncePublic ∧
      st.FreshCache.Signature = st.Signature ∧ st.FreshCache.SignBytes = st.SignBytes ∧
      st.FreshCache.filePath = st.filePath ∧
      (∀ k : HRSKey, st.FreshCache.cache k =
        if k = HRSKey.mk st.Height st.Round st.Step then
          some (SignStateConsensus.mk st.Height st.Round st.Step st.Signature st.SignBytes)
        else none) ∧
      ∃ loaded : SignState, LoadSignState filepath (.ok (.ok js)) = .ok loaded ∧
        loaded.Height = js.height ∧ loaded.Round = js.round ∧ loaded.Step = js.step ∧
        loaded.NoncePublic = js.nonce_public ∧ loaded.Signature = js.signature ∧
        loaded.SignBytes = js.signbytes ∧ loaded.filePath = filepath ∧
        ∀ k : HRSKey, loaded.cache k =
          if k = loaded.HRSKey then
            some (SignStateConsensus.mk js.height js.round js.step js.signature js.signbytes)
          else none :=
  ⟨rfl, rfl, rfl, rfl, rfl, rfl, rfl, fun _ => rfl,
    _, rfl, rfl, rfl, rfl, rfl, rfl, rfl, rfl, fun _ => rfl⟩

/-! ## Eviction, the panic of CheckHRS, and the frame of Save -/

/-- Away from the wrap-around: when `Save` returns nil and `ssc.Height - 3`
stays within 64 bits, the cache after the call is the cache before it with
`ssc` stored under its coordinate, less every key whose Height is below
`ssc.Height - 3`. -/
theorem save_cache_exact (st : SignState) (ssc : SignStateConsensus) (wg : Bool)
    (werr : Option String) (hr : ssc.inRange)
    (hlo : -9223372036854775808 + 3 ≤ ssc.Height)
    (h : (st.Save ssc wg werr).ret = .returned none) (k : HRSKey) :
    (st.Save ssc wg werr).state.cache k =
      if k.Height < ssc.Height - 3 then none
      else if k = ssc.HRSKey then some ssc else st.cache k := by
  have hg := save_ret_nil_admitted st ssc wg werr h
  rw [save_state_of_admitted st ssc wg werr hg, cacheAndMarshal_cache]
  have hw : wrapInt64 (ssc.Height - blocksToCache) = ssc.Height - 3 := by
    have h64 := hr.1
    unfold isInt64 at h64
    unfold wrapInt64 blocksToCache
    omega
  rw [hw]

theorem save_cache_exact_example :
    ((emptySignState "/dev/null").Save (SignStateConsensus.mk 5 0 1 (some [65]) (some [1]))
        false none).state.cache (HRSKey.mk 5 0 1)
      = if (HRSKey.mk 5 0 1).Height < (SignStateConsensus.mk 5 0 1 (some [65]) (some [1])).Height - 3
        then none
        else if HRSKey.mk 5 0 1 = (SignStateConsensus.mk 5 0 1 (some [65]) (some [1])).HRSKey
        then some (SignStateConsensus.mk 5 0 1 (some [65]) (some [1]))
        else (emptySignState "/dev/null").cache (HRSKey.mk 5 0 1) :=
  save_cache_exact (emptySignState "/dev/null")
    (SignStateConsensus.mk 5 0 1 (some [65]) (some [1])) false none (by decide) (by decide)
    (by decide) (HRSKey.mk 5 0 1)

/-- C18: `Save` should evict only the entries whose Height is below
`ssc.Height - 3`. On the state that `FreshCache` gives at the least 64-bit
height the code evicts more: the cache holds the entry of the high-water mark,
`Save` of a record one height above returns nil, the entry has a Height of at
least `ssc.Height - 3` and a key other than that of the record, and yet
`GetFromCache` no longer returns it after the call, because
`ssc.Height - 3` wraps around to a large positive bound. -/
theorem save_evicts_inside_window_on_wraparound :
    (SignState.mk (-9223372036854775808) 0 1 none (some [64]) (some [0]) "/dev/null"
        fun _ => none).FreshCache.GetFromCache (HRSKey.mk (-9223372036854775808) 0 1)
        = (HRSKey.mk (-9223372036854775808) 0 1,
            some (SignStateConsensus.mk (-9223372036854775808) 0 1 (some [64]) (some [0]))) ∧
      (SignStateConsensus.mk (-9223372036854775807) 0 1 (some [65]) (some [1])).inRange ∧
      ((SignState.mk (-9223372036854775808) 0 1 none (some [64]) (some [0]) "/dev/null"
        fun _ => none).FreshCache.Save
          (SignStateConsensus.mk (-9223372036854775807) 0 1 (some [65]) (some [1]))
          false none).ret = .returned none ∧
      (SignStateConsensus.mk (-9223372036854775807) 0 1 (some [65]) (some [1])).Height - 3
        ≤ (HRSKey.mk (-9223372036854775808) 0 1).Height ∧
      HRSKey.mk (-9223372036854775808) 0 1
        ≠ (SignStateConsensus.mk (-9223372036854775807) 0 1 (some [65]) (some [1])).HRSKey ∧
      ((SignState.mk (-9223372036854775808) 0 1 none (some [64]) (some [0]) "/dev/null"
        fun _ => none).FreshCache.Save
          (SignStateConsensus.mk (-9223372036854775807) 0 1 (some [65]) (some [1]))
          false none).state.GetFromCache (HRSKey.mk (-9223372036854775808) 0 1)
        = (HRSKey.mk (-9223372036854775807) 0 1, none) :=
  ⟨by decide, by decide, by decide, by decide, by decide, by decide⟩

theorem reachableWellFormed_inv (st : SignState) (hreach : ReachableWellFormed st) :
    st.SignBytes ≠ none → st.Signature ≠ none := by
  induction hreach with
  | created filepath =>
    intro hb
    exact absurd rfl hb
  | save st0 ssc wg werr _ hwf ih =>
    cases hg : st0.GetErrorIfLessOrEqual ssc.Height ssc.Round ssc.Step with
    | some err =>
      rw [save_refused st0 ssc wg werr err hg]
      exact ih
    | none =>
      rw [save_state_of_admitted st0 ssc wg werr hg]
      exact hwf
  | freshCache st0 _ ih => exact ih

theorem checkHRS_returns (st : SignState) (hrst : HRSTKey)
    (hinv : st.SignBytes ≠ none → st.Signature ≠ none) :
    ∃ r, st.CheckHRS hrst = .returned r := by
  rcases lt_trichotomy st.HRSKey.lex hrst.hrs.lex with hlt | heq | hgt
  · exact ⟨_, checkHRS_of_less st hrst hlt⟩
  · rw [checkHRS_of_equal st hrst ((HRSKey.lex_eq_iff _ _).1 heq)]
    by_cases hb : st.SignBytes ≠ none
    · rw [if_pos hb, if_neg (hinv hb)]
      exact ⟨_, rfl⟩
    · rw [if_neg hb]
      exact ⟨_, rfl⟩
  · obtain ⟨e, he, -⟩ := checkHRS_of_greater st hrst hgt
    exact ⟨_, he⟩

theorem existingSignature_returns (c : Codec) (st : SignState) (hrst : HRSTKey)
    (b : ByteSlice) (r : Bool × Option Error) (h : st.CheckHRS hrst = .returned r) :
    ∃ out, st.existingSignatureOrErrorIfRegression c hrst b = .returned out := by
  unfold SignState.existingSignatureOrErrorIfRegression
  rw [h]
  obtain ⟨same, err⟩ := r
  cases same with
  | false =>
    cases err with
    | some e => exact ⟨_, rfl⟩
    | none => exact ⟨_, rfl⟩
  | true =>
    cases err with
    | some e => exact ⟨_, rfl⟩
    | none =>
      simp only
      split_ifs
      · exact ⟨_, rfl⟩
      · cases st.OnlyDifferByTimestamp c b with
        | none => exact ⟨_, rfl⟩
        | some e => exact ⟨_, rfl⟩

/-- C19: the panic of `CheckHRS` is out of reach for well-formed records: every
sign state reached from the empty state of `LoadOrCreateSignState` by calls of
`Save` and `FreshCache`, the records passed to `Save` having a Signature
whenever they have SignBytes, has a Signature whenever it has SignBytes, and on
such a state `CheckHRS` and `existingSignatureOrErrorIfRegression` return, they
do not panic, for every request. -/
theorem checkHRS_never_panics (st : SignState) (hreach : ReachableWellFormed st) :
    (st.SignBytes ≠ none → st.Signature ≠ none) ∧
      (∀ hrst : HRSTKey, ∃ r, st.CheckHRS hrst = .returned r) ∧
      ∀ (c : Codec) (hrst : HRSTKey) (b : ByteSlice),
        ∃ out, st.existingSignatureOrErrorIfRegression c hrst b = .returned out := by
  have hinv := reachableWellFormed_inv st hreach
  refine ⟨hinv, fun hrst => checkHRS_returns st hrst hinv, ?_⟩
  intro c hrst b
  obtain ⟨r, hr⟩ := checkHRS_returns st hrst hinv
  exact existingSignature_returns c st hrst b r hr

theorem checkHRS_never_panics_witness :
    ∃ r, ((emptySignState "/dev/null").Save (SignStateConsensus.mk 1 0 2 (some [66]) (some [2]))
        false none).state.FreshCache.CheckHRS (HRSTKey.mk 1 0 2 9) = .returned r :=
  (checkHRS_never_panics _
    (ReachableWellFormed.freshCache _
      (ReachableWellFormed.save (emptySignState "/dev/null")
        (SignStateConsensus.mk 1 0 2 (some [66]) (some [2])) false none
        (ReachableWellFormed.created "/dev/null") (by decide)))).2.1 (HRSTKey.mk 1 0 2 9)

/-- C20: the frame of a `Save` that returns nil: Height, Round, Step, Signature
and SignBytes of the state become those of `ssc`, NoncePublic and filePath stay
what they were, and what is written goes to that filePath and holds the new
high-water mark together with the NoncePublic held before the call. -/
theorem save_frame (st : SignState) (ssc : SignStateConsensus) (wg : Bool)
    (werr : Option String) (h : (st.Save ssc wg werr).ret = .returned none) :
    (st.Save ssc wg werr).state.NoncePublic = st.NoncePublic ∧
      (st.Save ssc wg werr).state.filePath = st.filePath ∧
      (st.Save ssc wg werr).state.Height = ssc.Height ∧
      (st.Save ssc wg werr).state.Round = ssc.Round ∧
      (st.Save ssc wg werr).state.Step = ssc.Step ∧
      (st.Save ssc wg werr).state.Signature = ssc.Signature ∧
      (st.Save ssc wg werr).state.SignBytes = ssc.SignBytes ∧
      ∀ w, (st.Save ssc wg werr).disk = .returned (some w) →
        w.1 = st.filePath ∧
          w.2 = SignStateJSON.mk ssc.Height ssc.Round ssc.Step st.NoncePublic ssc.Signature
            ssc.SignBytes := by
  have hg := save_ret_nil_admitted st ssc wg werr h
  rw [save_state_of_admitted st ssc wg werr hg]
  refine ⟨rfl, rfl, rfl, rfl, rfl, rfl, rfl, ?_⟩
  intro w hw
  rw [save_disk_written st ssc wg werr w hw]
  exact ⟨rfl, rfl⟩

theorem save_frame_witness :
    ((SignState.mk 1 0 1 (some [9]) (some [65]) (some [1]) "/tmp/state.json" fun _ => none).Save
        (SignStateConsensus.mk 1 0 2 (some [66]) (some [2])) false none).state.NoncePublic
      = (SignState.mk 1 0 1 (some [9]) (some [65]) (some [1]) "/tmp/state.json"
          fun _ => none).NoncePublic :=
  (save_frame (SignState.mk 1 0 1 (some [9]) (some [65]) (some [1]) "/tmp/state.json"
      fun _ => none)
    (SignStateConsensus.mk 1 0 2 (some [66]) (some [2])) false none (by decide)).1

/-! ## Concurrent calls of Save -/

/-- C16: the high-water mark should never move to a smaller coordinate, also
with concurrent calls of `Save`. The code lets it: two calls, for (5, 0, 1) and
(7, 0, 1), start on the empty state; both pass the pre-check before either
runs `cacheAndMarshal`; the call for (7, 0, 1) commits first and the call for
(5, 0, 1) after it, so the coordinate of the state goes from (7, 0, 1) down to
(5, 0, 1), and both calls return nil. -/
theorem concurrent_saves_lower_hwm :
    hwmTrace (emptySignState "/dev/null")
        [SaveThread.mk (SignStateConsensus.mk 5 0 1 (some [65]) (some [1])) .start,
          SaveThread.mk (SignStateConsensus.mk 7 0 1 (some [66]) (some [2])) .start]
        [0, 1, 1, 0]
      = [HRSKey.mk 0 0 0, HRSKey.mk 0 0 0, HRSKey.mk 0 0 0, HRSKey.mk 7 0 1, HRSKey.mk 5 0 1] ∧
      phasesAfter (emptySignState "/dev/null")
        [SaveThread.mk (SignStateConsensus.mk 5 0 1 (some [65]) (some [1])) .start,
          SaveThread.mk (SignStateConsensus.mk 7 0 1 (some [66]) (some [2])) .start]
        [0, 1, 1, 0]
      = [.finished none, .finished none] ∧
      (HRSKey.mk 5 0 1).lex < (HRSKey.mk 7 0 1).lex :=
  ⟨by decide, by decide, (HRSKey.lex_lt_iff _ _).2 (Or.inl (by decide))⟩

/-! ## Cosigner key shares -/

theorem mapWithIndexFrom_length {α β : Type} (f : Nat → α → β) (l : List α) :
    ∀ start : Nat, (mapWithIndexFrom f start l).length = l.length := by
  induction l with
  | nil => intro start; rfl
  | cons a as ih =>
    intro start
    simp [mapWithIndexFrom, ih]

theorem mapWithIndexFrom_getElem? {α β : Type} (f : Nat → α → β) (l : List α) :
    ∀ (start i : Nat), (mapWithIndexFrom f start l)[i]? = (l[i]?).map (f (start + i)) := by
  induction l with
  | nil => intro start i; simp [mapWithIndexFrom]
  | cons a as ih =>
    intro start i
    cases i with
    | zero => simp [mapWithIndexFrom]
    | succ j =>
      simp only [mapWithIndexFrom, List.getElem?_cons_succ]
      rw [ih (start + 1) j, show start + 1 + j = start + (j + 1) by omega]

theorem firstError_none {α : Type} (rs : List (Except String α)) (h : firstError rs = none) :
    ∃ oks : List α, rs = oks.map Except.ok := by
  induction rs with
  | nil => exact ⟨[], rfl⟩
  | cons r rest ih =>
    cases r with
    | error err => simp [firstError] at h
    | ok k =>
      obtain ⟨oks, hoks⟩ := ih (by simpa [firstError] using h)
      exact ⟨k :: oks, by simp [hoks]⟩

theorem firstError_map_ok {α : Type} (oks : List α) :
    firstError (oks.map (Except.ok : α → Except String α)) = none := by
  induction oks with
  | nil => rfl
  | cons k rest ih => simpa [firstError] using ih

theorem rsaRecordsFrom_some (pubKeys : List (Option RSAPublicKey)) (oks : List RSAPrivateKey) :
    ∀ i : Nat, rsaRecordsFrom pubKeys i (oks.map some) =
      .returned (mapWithIndexFrom
        (fun j key => { ID := (j : Int) + 1, RSAKey := key, RSAPubs := pubKeys }) i oks) := by
  induction oks with
  | nil => intro i; rfl
  | cons k rest ih =>
    intro i
    simp only [List.map_cons, rsaRecordsFrom, ih (i + 1), mapWithIndexFrom]

theorem makeRSAKeys_of_oks (generateKey : Nat → Except String RSAPrivateKey) (num : Int)
    (oks : List RSAPrivateKey) (hnum : ¬ num < 0)
    (hoks : (List.range num.toNat).map generateKey = oks.map Except.ok) :
    makeRSAKeys generateKey num =
      .returned (oks.map some, oks.map (fun k => some k.PublicKey), none) := by
  unfold makeRSAKeys
  rw [if_neg hnum]
  simp only [hoks, List.map_map, firstError_map_ok]
  rfl

theorem makeECIESKeys_of_oks (generateKey : Nat → Except String ECIESPrivateKey) (num : Int)
    (oks : List ECIESPrivateKey) (hnum : ¬ num < 0)
    (hoks : (List.range num.toNat).map generateKey = oks.map Except.ok) :
    makeECIESKeys generateKey num =
      .returned (oks.map some, oks.map (fun k => k.PublicKey), none) := by
  unfold makeECIESKeys
  rw [if_neg hnum]
  simp only [hoks, List.map_map, firstError_map_ok]
  rfl

theorem createRSAShards_ok (generateKey : Nat → Except String RSAPrivateKey) (shards : Int)
    (out : List CosignerRSAKey)
    (h : CreateCosignerRSAShards generateKey shards = .returned (.ok out)) :
    ∃ oks : List RSAPrivateKey, (oks.length : Int) = shards ∧
      (List.range shards.toNat).map generateKey = oks.map Except.ok ∧
      out = mapWithIndexFrom
        (fun j key =>
          { ID := (j : Int) + 1, RSAKey := key,
            RSAPubs := oks.map (fun k => some k.PublicKey) }) 0 oks := by
  by_cases hnum : shards < 0
  · simp [CreateCosignerRSAShards, makeRSAKeys, hnum] at h
  · cases hfe : firstError ((List.range shards.toNat).map generateKey) with
    | some err =>
      simp [CreateCosignerRSAShards, makeRSAKeys, hnum, hfe] at h
    | none =>
      obtain ⟨oks, hoks⟩ := firstError_none _ hfe
      refine ⟨oks, ?_, hoks, ?_⟩
      · have hlen := congrArg List.length hoks
        simp only [List.length_map, List.length_range] at hlen
        omega
      · unfold CreateCosignerRSAShards at h
        rw [makeRSAKeys_of_oks generateKey shards oks hnum hoks] at h
        simp only [rsaRecordsFrom_some] at h
        simpa using h.symm

theorem createECIESShards_ok (generateKey : Nat → Except String ECIESPrivateKey)
    (shards : Int) (out : List CosignerECIESKey)
    (h : CreateCosignerECIESShards generateKey shards = .returned (.ok out)) :
    ∃ oks : List ECIESPrivateKey, (oks.length : Int) = shards ∧
      (List.range shards.toNat).map generateKey = oks.map Except.ok ∧
      out = mapWithIndexFrom
        (fun j key =>
          { ID := (j : Int) + 1, ECIESKey := key,
            ECIESPubs := oks.map (fun k => k.PublicKey) }) 0 (oks.map some) := by
  by_cases hnum : shards < 0
  · simp [CreateCosignerECIESShards, makeECIESKeys, hnum] at h
  · cases hfe : firstError ((List.range shards.toNat).map generateKey) with
    | some err =>
      simp [CreateCosignerECIESShards, makeECIESKeys, hnum, hfe] at h
    | none =>
      obtain ⟨oks, hoks⟩ := firstError_none _ hfe
      refine ⟨oks, ?_, hoks, ?_⟩
      · have hlen := congrArg List.length hoks
        simp only [List.length_map, List.length_range] at hlen
        omega
      · unfold CreateCosignerECIESShards at h
        rw [makeECIESKeys_of_oks generateKey shards oks hnum hoks] at h
        simpa using h.symm

/-- C15: the indexing of a set of cosigner keys. When the dealer returns exactly
`shards` shares, `CreateCosignerEd25519Shards` returns `shards` records, the
record at position i having ID i + 1 and the public key of the validator. When
`CreateCosignerRSAShards` or `CreateCosignerECIESShards` succeeds it returns
`shards` records, the record at position i having ID i + 1, all records
carrying one list of `shards` public keys, whose entry at position i is the
public key of the private key of record i. Each of the three does return when
the key bytes are long enough, respectively when every key generation
succeeds. -/
theorem cosigner_key_indexing :
    (∀ (expandSecret : List Nat → List Nat) (dealShares : List Nat → Nat → Nat → List ByteSlice)
        (pv : FilePVKey) (threshold shards : Nat) (out : List CosignerEd25519Key),
        (∀ secret, (dealShares secret threshold shards).length = shards) →
        CreateCosignerEd25519Shards expandSecret dealShares pv threshold shards
          = .returned out →
        out.length = shards ∧
          ∀ (i : Nat) (r : CosignerEd25519Key), out[i]? = some r →
            r.ID = (i : Int) + 1 ∧ r.PubKey = pv.PubKey) ∧
      (∀ (expandSecret : List Nat → List Nat)
        (dealShares : List Nat → Nat → Nat → List ByteSlice)
        (pv : FilePVKey) (threshold shards : Nat) (bytes : List Nat),
        (∀ secret, (dealShares secret threshold shards).length = shards) →
        pv.PrivKey = some bytes → 32 ≤ bytes.length →
        ∃ out, CreateCosignerEd25519Shards expandSecret dealShares pv threshold shards
          = .returned out) ∧
      (∀ (generateKey : Nat → Except String RSAPrivateKey) (shards : Int)
        (out : List CosignerRSAKey),
        CreateCosignerRSAShards generateKey shards = .returned (.ok out) →
        (out.length : Int) = shards ∧
          ∃ pubs : List (Option RSAPublicKey), (pubs.length : Int) = shards ∧
            ∀ (i : Nat) (r : CosignerRSAKey), out[i]? = some r →
              r.ID = (i : Int) + 1 ∧ r.RSAPubs = pubs ∧
                pubs[i]? = some (some r.RSAKey.PublicKey)) ∧
      (∀ (keyOf : Nat → RSAPrivateKey) (shards : Int), 0 ≤ shards →
        ∃ out, CreateCosignerRSAShards (fun i => .ok (keyOf i)) shards = .returned (.ok out)) ∧
      (∀ (generateKey : Nat → Except String ECIESPrivateKey) (shards : Int)
        (out : List CosignerECIESKey),
        CreateCosignerECIESShards generateKey shards = .returned (.ok out) →
        (out.length : Int) = shards ∧
          ∃ pubs : List (Option ECIESPublicKey), (pubs.length : Int) = shards ∧
            ∀ (i : Nat) (r : CosignerECIESKey), out[i]? = some r →
              r.ID = (i : Int) + 1 ∧ r.ECIESPubs = pubs ∧
                ∃ key, r.ECIESKey = some key ∧ pubs[i]? = some key.PublicKey) ∧
      ∀ (keyOf : Nat → ECIESPrivateKey) (shards : Int), 0 ≤ shards →
        ∃ out, CreateCosignerECIESShards (fun i => .ok (keyOf i)) shards
          = .returned (.ok out) := by
  refine ⟨?_, ?_, ?_, ?_, ?_, ?_⟩
  · intro expandSecret dealShares pv threshold shards out hdeal h
    unfold CreateCosignerEd25519Shards at h
    cases hpk : pv.PrivKey with
    | none => simp [hpk] at h
    | some bytes =>
      simp only [hpk] at h
      split_ifs at h with hshort hlong
      · simp only [Outcome.returned.injEq] at h
        subst h
        rw [hdeal]
        simp only [Nat.sub_self, List.replicate_zero, List.append_nil]
        refine ⟨by rw [mapWithIndexFrom_length, hdeal], ?_⟩
        intro i r hr
        rw [mapWithIndexFrom_getElem?] at hr
        cases hshare : (dealShares (expandSecret (bytes.take 32)) threshold shards)[i]? with
        | none => simp [hshare] at hr
        | some shard =>
          simp only [hshare, Option.map_some', Option.some.injEq, Nat.zero_add] at hr
          subst hr
          exact ⟨rfl, rfl⟩
  · intro expandSecret dealShares pv threshold shards bytes hdeal hpk hlen
    unfold CreateCosignerEd25519Shards
    simp only [hpk]
    rw [if_neg (by omega), if_neg (by rw [hdeal]; omega)]
    exact ⟨_, rfl⟩
  · intro generateKey shards out h
    obtain ⟨oks, hlen, -, hout⟩ := createRSAShards_ok generateKey shards out h
    subst hout
    refine ⟨by rw [mapWithIndexFrom_length]; exact hlen, oks.map (fun k => some k.PublicKey),
      by rw [List.length_map]; exact hlen, ?_⟩
    intro i r hr
    rw [mapWithIndexFrom_getElem?] at hr
    cases hk : oks[i]? with
    | none => simp [hk] at hr
    | some key =>
      simp only [hk, Option.map_some', Option.some.injEq, Nat.zero_add] at hr
      subst hr
      refine ⟨rfl, rfl, ?_⟩
      simp [List.getElem?_map, hk]
  · intro keyOf shards hnum
    have hoks : (List.range shards.toNat).map (fun i => (Except.ok (keyOf i) : Except String _))
        = ((List.range shards.toNat).map keyOf).map Except.ok := by
      simp [List.map_map, Function.comp_def]
    unfold CreateCosignerRSAShards
    rw [makeRSAKeys_of_oks _ shards _ (by omega) hoks]
    simp only [rsaRecordsFrom_some]
    exact ⟨_, rfl⟩
  · intro generateKey shards out h
    obtain ⟨oks, hlen, -, hout⟩ := createECIESShards_ok generateKey shards out h
    subst hout
    refine ⟨by rw [mapWithIndexFrom_length, List.length_map]; exact hlen,
      oks.map (fun k => k.PublicKey), by rw [List.length_map]; exact hlen, ?_⟩
    intro i r hr
    rw [mapWithIndexFrom_getElem?, List.getElem?_map] at hr
    cases hk : oks[i]? with
    | none => simp [hk] at hr
    | some key =>
      simp only [hk, Option.map_some', Option.some.injEq, Nat.zero_add] at hr
      subst hr
      refine ⟨rfl, rfl, key, rfl, ?_⟩
      simp [List.getElem?_map, hk]
  · intro keyOf shards hnum
    have hoks : (List.range shards.toNat).map (fun i => (Except.ok (keyOf i) : Except String _))
        = ((List.range shards.toNat).map keyOf).map Except.ok := by
      simp [List.map_map, Function.comp_def]
    unfold CreateCosignerECIESShards
    rw [makeECIESKeys_of_oks _ shards _ (by omega) hoks]
    exact ⟨_, rfl⟩

theorem cosigner_key_indexing_witness :
    (([CosignerRSAKey.mk 1 ⟨⟨77, 65537⟩, 5, []⟩ [some ⟨77, 65537⟩, some ⟨78, 65537⟩],
        CosignerRSAKey.mk 2 ⟨⟨78, 65537⟩, 6, []⟩ [some ⟨77, 65537⟩, some ⟨78, 65537⟩]]
        : List CosignerRSAKey).length : Int) = 2 ∧
      ∃ pubs : List (Option RSAPublicKey), (pubs.length : Int) = 2 ∧
        ∀ (i : Nat) (r : CosignerRSAKey),
          ([CosignerRSAKey.mk 1 ⟨⟨77, 65537⟩, 5, []⟩ [some ⟨77, 65537⟩, some ⟨78, 65537⟩],
            CosignerRSAKey.mk 2 ⟨⟨78, 65537⟩, 6, []⟩ [some ⟨77, 65537⟩, some ⟨78, 65537⟩]]
            : List CosignerRSAKey)[i]? = some r →
            r.ID = (i : Int) + 1 ∧ r.RSAPubs = pubs ∧
              pubs[i]? = some (some r.RSAKey.PublicKey) :=
  cosigner_key_indexing.2.2.1 (fun i => .ok ⟨⟨77 + i, 65537⟩, 5 + i, []⟩) 2
    [CosignerRSAKey.mk 1 ⟨⟨77, 65537⟩, 5, []⟩ [some ⟨77, 65537⟩, some ⟨78, 65537⟩],
      CosignerRSAKey.mk 2 ⟨⟨78, 65537⟩, 6, []⟩ [some ⟨77, 65537⟩, some ⟨78, 65537⟩]]
    rfl

end Horcrux
